import Mathlib

/-!  Verification of the Realm of Eternity procedural dungeon generator
(`Tools/generators/dungeon_generator.py`) against its specification.

Shallow embedding conventions:
* Python's global `random` module is modelled as an abstract entropy source, a
  stream of natural numbers consumed one draw per primitive call (`randint`,
  `random`, `choice`, and one draw per selection step of `sample`), exactly at
  the program points where the source draws.  Quantifying over all streams
  covers all seeds.  `random.random()` is modelled as a rational in `[0,1)`
  with 53-bit resolution, mirroring CPython.
* Library calls that can raise (`randint` on an empty range, `choice` on an
  empty sequence, `sample` with a bad count) return `Except String`, and the
  generator propagates the exception as the Python program would.
* The grid is a list of lists of tile tags, as in the source; integer
  coordinates are `Int`.  The source's float `_room_distance` is embedded as
  the exact squared centre distance: it is used only through `<` comparisons,
  which the (strictly monotone, correctly rounded) square root preserves at
  all realistic coordinate magnitudes.
* Rooms are mutated in place in the source; here the room catalog is a list
  updated positionally, matching the source's identification of rooms by their
  position in `self.rooms` (room ids are assigned from a monotonic counter).
-/

namespace DG

inductive RoomType where
  | entrance | corridor | combat | puzzle | treasure | boss | skill_check | safe | secret
deriving DecidableEq, Repr, Inhabited

inductive TileType where
  | floor | wall | door | locked_door | trap | water | lava | pit | stairs_up | stairs_down
deriving DecidableEq, Repr, Inhabited

/-- An encounter record.  Records produced by `_generate_encounters` carry a
position and `is_boss = false`; records produced by `_generate_boss_encounter`
carry no position and `is_boss = true` (the Python dicts have exactly those
keys). -/
structure Encounter where
  monster_id : String
  level : Int
  position : Option (Int × Int)
  is_boss : Bool
  mechanics : List String
deriving DecidableEq, Repr, Inhabited

structure LootItem where
  item_id : String
  quantity : Int
deriving DecidableEq, Repr, Inhabited

/-- A puzzle descriptor `{"type": kind, <param key>: param}`; the per-type
parameter key (levers/plates/symbols/torches/blocks) is determined by `kind`. -/
structure PuzzleDesc where
  kind : String
  param : Int
deriving DecidableEq, Repr, Inhabited

structure Room where
  id : Nat
  room_type : RoomType
  x : Int
  y : Int
  width : Int
  height : Int
  connections : List Nat := []
  encounters : List Encounter := []
  loot : List LootItem := []
  puzzle : Option PuzzleDesc := none
  skill_requirement : Option String := none
deriving DecidableEq, Repr, Inhabited

structure MonsterEntry where
  id : String
  level : Int
deriving DecidableEq, Repr, Inhabited

structure LootEntry where
  id : String
  max_quantity : Int
deriving DecidableEq, Repr, Inhabited

structure BossConfig where
  id : String
  level : Int
  mechanics : List String
deriving DecidableEq, Repr, Inhabited

structure DungeonConfig where
  name : String
  theme : String
  difficulty : String
  min_rooms : Int := 10
  max_rooms : Int := 20
  min_room_size : Int := 5
  max_room_size : Int := 15
  width : Int := 100
  height : Int := 100
  combat_room_chance : ℚ := 2/5
  puzzle_room_chance : ℚ := 3/20
  treasure_room_chance : ℚ := 1/10
  secret_room_chance : ℚ := 1/20
  trap_density : ℚ := 1/10
  required_skills : List String := []
  monster_table : List MonsterEntry := []
  loot_table : List LootEntry := []
  boss_config : Option BossConfig := none
deriving DecidableEq, Repr, Inhabited

/-! ### The random-source model -/

/-- The pseudo-random source: an arbitrary stream of naturals and a cursor. -/
structure Rand where
  stream : Nat → Nat
  pos : Nat

def Rand.next (r : Rand) : Nat × Rand := (r.stream r.pos, { r with pos := r.pos + 1 })

/-- `random.randint(a, b)`: uniform on `[a, b]`; raises on an empty range. -/
def pyRandint (a b : Int) (r : Rand) : Except String (Int × Rand) :=
  if a ≤ b then
    let (n, r') := r.next
    .ok (a + (n : Int) % (b - a + 1), r')
  else .error "empty range for randrange()"

/-- `random.random()`: a float in `[0, 1)` with 53-bit resolution. -/
def pyRandom (r : Rand) : ℚ × Rand :=
  let (n, r') := r.next
  (((n % 2 ^ 53 : Nat) : ℚ) / 2 ^ 53, r')

/-- The index drawn by `random.choice` on a sequence of length `n`. -/
def pyChoiceIdx (n : Nat) (r : Rand) : Except String (Nat × Rand) :=
  if n = 0 then .error "Cannot choose from an empty sequence"
  else
    let (v, r') := r.next
    .ok (v % n, r')

/-- One selection step of `random.sample` (CPython's pool algorithm): pick a
random slot of the active pool, then move the last active element into it. -/
def pySampleAux {α : Type} : Nat → List α → Rand → List α × Rand
  | 0, _, r => ([], r)
  | _ + 1, [], r => ([], r)
  | k + 1, p :: ps, r =>
    let pool := p :: ps
    let (n, r1) := r.next
    let j := n % pool.length
    let chosen := pool.getD j p
    let pool' := (pool.set j (pool.getLastD p)).dropLast
    let (rest, r2) := pySampleAux k pool' r1
    (chosen :: rest, r2)

/-- `random.sample(population, k)`: raises unless `0 ≤ k ≤ len(population)`. -/
def pySample {α : Type} (population : List α) (k : Int) (r : Rand) :
    Except String (List α × Rand) :=
  if k < 0 ∨ (population.length : Int) < k then
    .error "Sample larger than population or is negative"
  else .ok (pySampleAux k.toNat population r)

/-! ### Grid -/

abbrev Grid := List (List TileType)

def tileGet (g : Grid) (y x : Int) : TileType :=
  (g.getD y.toNat []).getD x.toNat TileType.wall

/-- Write one grid cell.  Every reachable write in the source is in bounds
(placement and the secret pass bounds-check, corridors guard explicitly), so
the out-of-range no-op here is never exercised on a run that performs it. -/
def tileSet (g : Grid) (y x : Int) (t : TileType) : Grid :=
  if 0 ≤ y ∧ 0 ≤ x then g.set y.toNat ((g.getD y.toNat []).set x.toNat t) else g

/-- Python's `range(a, b)` over integers. -/
def intRange (a b : Int) : List Int := (List.range (b - a).toNat).map (fun i => a + Int.ofNat i)

/-! ### Generator state and the phases of `DungeonGenerator.generate` -/

structure GenSt where
  rooms : List Room
  grid : Grid
  next_room_id : Nat
deriving Repr

def roomAt (rooms : List Room) (i : Nat) : Room := rooms.getD i default

/-- `_check_room_overlap`: true iff the candidate rectangle, grown by the
2-tile padding, meets some existing room's rectangle. -/
def checkRoomOverlap (rooms : List Room) (x y width height : Int) : Bool :=
  let padding : Int := 2
  rooms.any (fun room =>
    decide (x < room.x + room.width + padding) &&
    decide (x + width + padding > room.x) &&
    decide (y < room.y + room.height + padding) &&
    decide (y + height + padding > room.y))

/-- `_carve_room`. -/
def carveRoom (g : Grid) (room : Room) : Grid :=
  (intRange room.y (room.y + room.height)).foldl (fun g y =>
    (intRange room.x (room.x + room.width)).foldl (fun g x => tileSet g y x .floor) g) g

/-- One trial of `_generate_rooms_bsp`'s placement loop. -/
def placeTrial (cfg : DungeonConfig) (st : GenSt) (r : Rand) : Except String (GenSt × Rand) :=
  match pyRandint cfg.min_room_size cfg.max_room_size r with
  | .error e => .error e
  | .ok (width, r) =>
  match pyRandint cfg.min_room_size cfg.max_room_size r with
  | .error e => .error e
  | .ok (height, r) =>
  match pyRandint 2 (cfg.width - width - 2) r with
  | .error e => .error e
  | .ok (x, r) =>
  match pyRandint 2 (cfg.height - height - 2) r with
  | .error e => .error e
  | .ok (y, r) =>
    if checkRoomOverlap st.rooms x y width height then .ok (st, r)
    else
      let room : Room := { id := st.next_room_id, room_type := .corridor,
                           x := x, y := y, width := width, height := height }
      let st' : GenSt := { st with
        rooms := st.rooms ++ [room]
        next_room_id := st.next_room_id + 1
        grid := carveRoom st.grid room }
      .ok (st', r)

def placeLoop (cfg : DungeonConfig) (num_rooms : Int) :
    Nat → GenSt → Rand → Except String (GenSt × Rand)
  | 0, st, r => .ok (st, r)
  | fuel + 1, st, r =>
    if num_rooms ≤ (st.rooms.length : Int) then .ok (st, r)
    else
      match placeTrial cfg st r with
      | .error e => .error e
      | .ok (st, r) => placeLoop cfg num_rooms fuel st r

/-- `_generate_rooms_bsp`. -/
def generateRoomsBsp (cfg : DungeonConfig) (st : GenSt) (r : Rand) :
    Except String (GenSt × Rand) :=
  match pyRandint cfg.min_rooms cfg.max_rooms r with
  | .error e => .error e
  | .ok (num_rooms, r) => placeLoop cfg num_rooms (num_rooms * 3).toNat st r

def roomCenter (room : Room) : Int × Int :=
  (room.x + room.width / 2, room.y + room.height / 2)

/-- Squared centre distance; `_room_distance` returns its square root. -/
def roomDistSq (r1 r2 : Room) : Int :=
  let c1 := roomCenter r1
  let c2 := roomCenter r2
  (c1.1 - c2.1) ^ 2 + (c1.2 - c2.2) ^ 2

/-- `_carve_h_corridor`. -/
def carveHCorridor (cfg : DungeonConfig) (g : Grid) (x1 x2 y : Int) : Grid :=
  (intRange (min x1 x2) (max x1 x2 + 1)).foldl (fun g x =>
    if 0 ≤ x ∧ x < cfg.width ∧ 0 ≤ y ∧ y < cfg.height then tileSet g y x .floor else g) g

/-- `_carve_v_corridor`. -/
def carveVCorridor (cfg : DungeonConfig) (g : Grid) (y1 y2 x : Int) : Grid :=
  (intRange (min y1 y2) (max y1 y2 + 1)).foldl (fun g y =>
    if 0 ≤ x ∧ x < cfg.width ∧ 0 ≤ y ∧ y < cfg.height then tileSet g y x .floor else g) g

/-- `_carve_corridor`: an L-shaped corridor, orientation by a coin flip. -/
def carveCorridor (cfg : DungeonConfig) (g : Grid) (r1 r2 : Room) (rand : Rand) :
    Grid × Rand :=
  let c1 := roomCenter r1
  let c2 := roomCenter r2
  let qr := pyRandom rand
  if qr.1 < 1/2 then
    (carveVCorridor cfg (carveHCorridor cfg g c1.1 c2.1 c1.2) c1.2 c2.2 c2.1, qr.2)
  else
    (carveHCorridor cfg (carveVCorridor cfg g c1.2 c2.2 c1.1) c1.1 c2.1 c2.2, qr.2)

/-- Append `v` to the connection list of the room at position `i`. -/
def appendConn (rooms : List Room) (i : Nat) (v : Nat) : List Room :=
  rooms.set i { roomAt rooms i with connections := (roomAt rooms i).connections ++ [v] }

/-- The candidate pairs scanned by `_connect_rooms`' nested loops. -/
def allPairs (connected unconnected : List Nat) : List (Nat × Nat) :=
  connected.flatMap (fun c => unconnected.map (fun u => (c, u)))

/-- One comparison of `_connect_rooms`' best-pair scan: a strictly smaller
distance replaces the incumbent (`none` stands for the initial `inf`). -/
def bestStep (rooms : List Room) (acc : Option Int × Nat × Nat) (cu : Nat × Nat) :
    Option Int × Nat × Nat :=
  let dist := roomDistSq (roomAt rooms cu.1) (roomAt rooms cu.2)
  match acc.1 with
  | none => (some dist, cu)
  | some best => if dist < best then (some dist, cu) else acc

/-- The minimum-distance (connected, unconnected) pair, first strictly better
pair winning, starting from `best_dist = inf`, `best_pair = (0, 1)`. -/
def findBestPair (rooms : List Room) (connected unconnected : List Nat) : Nat × Nat :=
  ((allPairs connected unconnected).foldl (bestStep rooms)
    ((none : Option Int), ((0 : Nat), (1 : Nat)))).2

/-- The Prim-style loop of `_connect_rooms`.  The Python sets are modelled as
insertion-ordered lists; no proved property depends on the iteration order. -/
def mstLoop (cfg : DungeonConfig) :
    Nat → List Nat → List Nat → GenSt → Rand → GenSt × Rand
  | 0, _, _, st, r => (st, r)
  | fuel + 1, connected, unconnected, st, r =>
    match unconnected with
    | [] => (st, r)
    | _ :: _ =>
      let best := findBestPair st.rooms connected unconnected
      let gr := carveCorridor cfg st.grid (roomAt st.rooms best.1) (roomAt st.rooms best.2) r
      let rooms := appendConn (appendConn st.rooms best.1 best.2) best.2 best.1
      mstLoop cfg fuel (connected ++ [best.2]) (unconnected.erase best.2)
        { st with rooms := rooms, grid := gr.1 } gr.2

/-- The extra-connection loop of `_connect_rooms` (loop topology). -/
def extraLoop (cfg : DungeonConfig) : Nat → GenSt → Rand → Except String (GenSt × Rand)
  | 0, st, r => .ok (st, r)
  | k + 1, st, r =>
    match pyChoiceIdx st.rooms.length r with
    | .error e => .error e
    | .ok (i1, r) =>
    match pyChoiceIdx st.rooms.length r with
    | .error e => .error e
    | .ok (i2, r) =>
      let r1 := roomAt st.rooms i1
      let r2 := roomAt st.rooms i2
      if r1.id ≠ r2.id ∧ r2.id ∉ r1.connections then
        let gr := carveCorridor cfg st.grid r1 r2 r
        let st' : GenSt := { st with
          rooms := appendConn (appendConn st.rooms i1 r2.id) i2 r1.id
          grid := gr.1 }
        extraLoop cfg k st' gr.2
      else extraLoop cfg k st r

/-- `_connect_rooms`. -/
def connectRooms (cfg : DungeonConfig) (st : GenSt) (r : Rand) :
    Except String (GenSt × Rand) :=
  if st.rooms.length < 2 then .ok (st, r)
  else
    let sr := mstLoop cfg (st.rooms.length - 1) [0]
      (List.range' 1 (st.rooms.length - 1)) st r
    match pyRandint 1 ((sr.1.rooms.length : Int) / 4) sr.2 with
    | .error e => .error e
    | .ok (extra, r2) => extraLoop cfg extra.toNat sr.1 r2

/-- The key minimised by the entrance choice in `_place_special_rooms`. -/
def edgeKey (cfg : DungeonConfig) (room : Room) : Int :=
  min (min room.x room.y)
    (min (cfg.width - room.x - room.width) (cfg.height - room.y - room.height))

/-- Index of the first room minimising `key` (Python `min` keeps the first
minimum in iteration order). -/
def argminIdx (key : Room → Int) (rooms : List Room) : Nat :=
  (List.range rooms.length).foldl
    (fun best i => if key (roomAt rooms i) < key (roomAt rooms best) then i else best) 0

/-- Index of the first room maximising `key` (Python `max` keeps the first
maximum in iteration order). -/
def argmaxIdx (key : Room → Int) (rooms : List Room) : Nat :=
  (List.range rooms.length).foldl
    (fun best i => if key (roomAt rooms best) < key (roomAt rooms i) then i else best) 0

/-- `_place_special_rooms`. -/
def placeSpecialRooms (cfg : DungeonConfig) (st : GenSt) : GenSt :=
  if st.rooms.isEmpty then st
  else
    let eIdx := argminIdx (edgeKey cfg) st.rooms
    let rooms1 := st.rooms.set eIdx { roomAt st.rooms eIdx with room_type := .entrance }
    let entrance := roomAt rooms1 eIdx
    let bIdx := argmaxIdx (fun room => roomDistSq entrance room) rooms1
    let rooms2 := rooms1.set bIdx { roomAt rooms1 bIdx with room_type := .boss }
    { st with rooms := rooms2 }

/-- The monster loop of `_generate_encounters`. -/
def encLoop (cfg : DungeonConfig) (room : Room) :
    Nat → Rand → Except String (List Encounter × Rand)
  | 0, r => .ok ([], r)
  | k + 1, r =>
    match pyChoiceIdx cfg.monster_table.length r with
    | .error e => .error e
    | .ok (mi, r) =>
      let monster := cfg.monster_table.getD mi default
      match pyRandint (room.x + 1) (room.x + room.width - 2) r with
      | .error e => .error e
      | .ok (px, r) =>
      match pyRandint (room.y + 1) (room.y + room.height - 2) r with
      | .error e => .error e
      | .ok (py, r) =>
        match encLoop cfg room k r with
        | .error e => .error e
        | .ok (rest, r) =>
          .ok ({ monster_id := monster.id, level := monster.level,
                 position := some (px, py), is_boss := false, mechanics := [] } :: rest, r)

/-- `_generate_encounters`. -/
def generateEncounters (cfg : DungeonConfig) (room : Room) (r : Rand) :
    Except String (List Encounter × Rand) :=
  if cfg.monster_table.isEmpty then .ok ([], r)
  else
    match pyRandint 1 (max 1 (room.width * room.height / 20)) r with
    | .error e => .error e
    | .ok (num, r) => encLoop cfg room num.toNat r

/-- `_generate_boss_encounter`: one record from the boss descriptor if it is
present (and truthy), otherwise the empty list. -/
def generateBossEncounter (cfg : DungeonConfig) : List Encounter :=
  match cfg.boss_config with
  | some bc => [{ monster_id := bc.id, level := bc.level, position := none,
                  is_boss := true, mechanics := bc.mechanics }]
  | none => []

/-- The item loop of `_generate_loot`. -/
def lootLoop (cfg : DungeonConfig) (boss : Bool) :
    Nat → Rand → Except String (List LootItem × Rand)
  | 0, r => .ok ([], r)
  | k + 1, r =>
    match pyChoiceIdx cfg.loot_table.length r with
    | .error e => .error e
    | .ok (ii, r) =>
      let item := cfg.loot_table.getD ii default
      match pyRandint 1 item.max_quantity r with
      | .error e => .error e
      | .ok (q, r) =>
        let quantity := if boss then q * 2 else q
        match lootLoop cfg boss k r with
        | .error e => .error e
        | .ok (rest, r) => .ok ({ item_id := item.id, quantity := quantity } :: rest, r)

/-- `_generate_loot`. -/
def generateLoot (cfg : DungeonConfig) (bonus boss : Bool) (r : Rand) :
    Except String (List LootItem × Rand) :=
  if cfg.loot_table.isEmpty then .ok ([], r)
  else
    match pyRandint 1 3 r with
    | .error e => .error e
    | .ok (n, r) =>
      let n := n + (if bonus then 2 else 0) + (if boss then 3 else 0)
      lootLoop cfg boss n.toNat r

/-- `_generate_puzzle`: the list literal evaluates all five parameter draws,
then one template is chosen. -/
def generatePuzzle (r : Rand) : Except String (PuzzleDesc × Rand) :=
  match pyRandint 3 6 r with
  | .error e => .error e
  | .ok (levers, r) =>
  match pyRandint 4 9 r with
  | .error e => .error e
  | .ok (plates, r) =>
  match pyRandint 3 5 r with
  | .error e => .error e
  | .ok (symbols, r) =>
  match pyRandint 4 8 r with
  | .error e => .error e
  | .ok (torches, r) =>
  match pyRandint 2 4 r with
  | .error e => .error e
  | .ok (blocks, r) =>
    let types : List PuzzleDesc :=
      [⟨"lever_sequence", levers⟩, ⟨"pressure_plates", plates⟩,
       ⟨"symbol_matching", symbols⟩, ⟨"torch_lighting", torches⟩,
       ⟨"block_pushing", blocks⟩]
    match pyChoiceIdx types.length r with
    | .error e => .error e
    | .ok (pi, r) => .ok (types.getD pi default, r)

/-- The cumulative role roll of `_populate_rooms` for one room: combat, then
puzzle, then treasure by cumulative thresholds, otherwise safe. -/
def assignRole (cfg : DungeonConfig) (room : Room) (roll : ℚ) (r : Rand) :
    Except String (Room × Rand) :=
  if roll < cfg.combat_room_chance then
    match generateEncounters cfg room r with
    | .error e => .error e
    | .ok (encs, r) => .ok ({ room with room_type := .combat, encounters := encs }, r)
  else if roll < cfg.combat_room_chance + cfg.puzzle_room_chance then
    match generatePuzzle r with
    | .error e => .error e
    | .ok (pz, r) => .ok ({ room with room_type := .puzzle, puzzle := some pz }, r)
  else if roll < cfg.combat_room_chance + cfg.puzzle_room_chance +
      cfg.treasure_room_chance then
    match generateLoot cfg true false r with
    | .error e => .error e
    | .ok (lt, r) => .ok ({ room with room_type := .treasure, loot := lt }, r)
  else .ok ({ room with room_type := .safe }, r)

/-- The body of `_populate_rooms`' first loop for the room at position `i`. -/
def populateRoom (cfg : DungeonConfig) (st : GenSt) (i : Nat) (r : Rand) :
    Except String (GenSt × Rand) :=
  let room := roomAt st.rooms i
  if room.room_type = .entrance ∨ room.room_type = .boss then .ok (st, r)
  else
    let rollr := pyRandom r
    match assignRole cfg room rollr.1 rollr.2 with
    | .error e => .error e
    | .ok (room, r) =>
      -- `if room.room_type != TREASURE and random.random() < 0.3` (short-circuit)
      if room.room_type ≠ .treasure then
        let qr := pyRandom r
        let r := qr.2
        if qr.1 < 3/10 then
          match generateLoot cfg false false r with
          | .error e => .error e
          | .ok (lt, r) =>
            .ok ({ st with rooms := st.rooms.set i { room with loot := lt } }, r)
        else .ok ({ st with rooms := st.rooms.set i room }, r)
      else .ok ({ st with rooms := st.rooms.set i room }, r)

def populateLoop (cfg : DungeonConfig) :
    List Nat → GenSt → Rand → Except String (GenSt × Rand)
  | [], st, r => .ok (st, r)
  | i :: rest, st, r =>
    match populateRoom cfg st i r with
    | .error e => .error e
    | .ok (st, r) => populateLoop cfg rest st r

/-- The boss loop of `_populate_rooms`. -/
def populateBossLoop (cfg : DungeonConfig) :
    List Nat → GenSt → Rand → Except String (GenSt × Rand)
  | [], st, r => .ok (st, r)
  | i :: rest, st, r =>
    let room := roomAt st.rooms i
    match generateLoot cfg false true r with
    | .error e => .error e
    | .ok (lt, r) =>
      let room' : Room := { room with encounters := generateBossEncounter cfg, loot := lt }
      populateBossLoop cfg rest { st with rooms := st.rooms.set i room' } r

/-- `_populate_rooms`. -/
def populateRooms (cfg : DungeonConfig) (st : GenSt) (r : Rand) :
    Except String (GenSt × Rand) :=
  match populateLoop cfg (List.range st.rooms.length) st r with
  | .error e => .error e
  | .ok (st, r) =>
    let bossIdxs := (List.range st.rooms.length).filter
      (fun i => decide ((roomAt st.rooms i).room_type = .boss))
    populateBossLoop cfg bossIdxs st r

/-- Python truncation `int(q)` (toward zero). -/
def pyTrunc (q : ℚ) : Int := q.num.tdiv q.den

/-- The floor-tile scan of `_add_traps`, in row-major order. -/
def floorTilesOf (cfg : DungeonConfig) (g : Grid) : List (Int × Int) :=
  (intRange 0 cfg.height).flatMap (fun y =>
    (intRange 0 cfg.width).flatMap (fun x =>
      if tileGet g y x = .floor then [(x, y)] else []))

/-- `_add_traps`. -/
def addTraps (cfg : DungeonConfig) (st : GenSt) (r : Rand) :
    Except String (GenSt × Rand) :=
  let floor_tiles := floorTilesOf cfg st.grid
  let num_traps := pyTrunc ((floor_tiles.length : ℚ) * cfg.trap_density)
  match pySample floor_tiles (min num_traps (floor_tiles.length : Int)) r with
  | .error e => .error e
  | .ok (trap_tiles, r) =>
    .ok ({ st with grid := trap_tiles.foldl (fun g p => tileSet g p.2 p.1 .trap) st.grid }, r)

/-- The position scan of one secret-room attempt: the four cardinal offsets in
order left, right, top, bottom; the first in-bounds, non-overlapping one wins. -/
def trySecretPositions (cfg : DungeonConfig) (st : GenSt) (width height : Int) :
    List (Int × Int) → Option GenSt
  | [] => none
  | (x, y) :: rest =>
    if x > 0 ∧ y > 0 ∧ x + width < cfg.width ∧ y + height < cfg.height ∧
        checkRoomOverlap st.rooms x y width height = false then
      let secret : Room := { id := st.next_room_id, room_type := .secret,
                             x := x, y := y, width := width, height := height }
      some { st with
        rooms := st.rooms ++ [secret]
        next_room_id := st.next_room_id + 1
        grid := carveRoom st.grid secret }
    else trySecretPositions cfg st width height rest

/-- The anchor/size retry loop of `_add_secret_rooms` (up to 10 attempts). -/
def secretAttempts (cfg : DungeonConfig) : Nat → GenSt → Rand → Except String (GenSt × Rand)
  | 0, st, r => .ok (st, r)
  | k + 1, st, r =>
    match pyChoiceIdx st.rooms.length r with
    | .error e => .error e
    | .ok (bi, r) =>
      let base := roomAt st.rooms bi
      match pyRandint 3 6 r with
      | .error e => .error e
      | .ok (width, r) =>
      match pyRandint 3 6 r with
      | .error e => .error e
      | .ok (height, r) =>
        let positions : List (Int × Int) :=
          [(base.x - width - 1, base.y), (base.x + base.width + 1, base.y),
           (base.x, base.y - height - 1), (base.x, base.y + base.height + 1)]
        match trySecretPositions cfg st width height positions with
        | some st' =>
          let idx := st'.rooms.length - 1
          match generateLoot cfg true false r with
          | .error e => .error e
          | .ok (lt, r) =>
            let sec' : Room := { roomAt st'.rooms idx with loot := lt }
            .ok ({ st' with rooms := st'.rooms.set idx sec' }, r)
        | none => secretAttempts cfg k st r

/-- `_add_secret_rooms`. -/
def addSecretRooms (cfg : DungeonConfig) (st : GenSt) (r : Rand) :
    Except String (GenSt × Rand) :=
  let qr := pyRandom r
  if qr.1 > cfg.secret_room_chance then .ok (st, qr.2)
  else secretAttempts cfg 10 st qr.2

/-! ### Export and the top-level driver -/

structure Metadata where
  name : String
  theme : String
  difficulty : String
  seed : Int
  width : Int
  height : Int
deriving DecidableEq, Repr, Inhabited

structure Dungeon where
  metadata : Metadata
  rooms : List Room
  grid : Grid
  required_skills : List String
deriving DecidableEq, Repr, Inhabited

/-- `_export`. -/
def exportDungeon (cfg : DungeonConfig) (seed : Int) (st : GenSt) : Dungeon :=
  { metadata := { name := cfg.name, theme := cfg.theme, difficulty := cfg.difficulty,
                  seed := seed, width := cfg.width, height := cfg.height },
    rooms := st.rooms, grid := st.grid, required_skills := cfg.required_skills }

/-- The all-wall initial state of `generate`. -/
def initSt (cfg : DungeonConfig) : GenSt :=
  { rooms := [], next_room_id := 0,
    grid := List.replicate cfg.height.toNat (List.replicate cfg.width.toNat TileType.wall) }

/-- `generate` up to (excluding) `_add_traps`. -/
def generateUpToTraps (cfg : DungeonConfig) (r : Rand) : Except String (GenSt × Rand) :=
  match generateRoomsBsp cfg (initSt cfg) r with
  | .error e => .error e
  | .ok (st, r) =>
    match connectRooms cfg st r with
    | .error e => .error e
    | .ok (st, r) => populateRooms cfg (placeSpecialRooms cfg st) r

/-- The tail of `generate`: `_add_traps`, `_add_secret_rooms`, `_export`. -/
def finishGeneration (cfg : DungeonConfig) (seed : Int) (st : GenSt) (r : Rand) :
    Except String Dungeon :=
  match addTraps cfg st r with
  | .error e => .error e
  | .ok (st, r) =>
    match addSecretRooms cfg st r with
    | .error e => .error e
    | .ok (st, _) => .ok (exportDungeon cfg seed st)

/-- `DungeonGenerator.generate`, as a function of the configuration, the
recorded seed and the entropy stream the seeded generator unfolds to. -/
def generate (cfg : DungeonConfig) (seed : Int) (stream : Nat → Nat) :
    Except String Dungeon :=
  match generateUpToTraps cfg ⟨stream, 0⟩ with
  | .error e => .error e
  | .ok (st, r) => finishGeneration cfg seed st r

/-- The seed selection of `DungeonGenerator.__init__`:
`self.seed = seed or random.randint(0, 2**32)`.  Python's `or` takes the
fallback when `seed` is `None` or `0` (both falsy); `fresh` models the draw
from the ambient, unseeded generator. -/
def mkSeed (supplied : Option Int) (fresh : Int) : Int :=
  match supplied with
  | some s => if s = 0 then fresh else s
  | none => fresh

/-- A full run: seed selection, then seeding (`prng` maps the recorded seed to
the entropy stream the seeded generator produces), then generation. -/
def generateRun (cfg : DungeonConfig) (supplied : Option Int) (fresh : Int)
    (prng : Int → Nat → Nat) : Except String Dungeon :=
  let seed := mkSeed supplied fresh
  generate cfg seed (prng seed)

/-- Projection used to state concrete facts about a successful run. -/
def dungeonOf (e : Except String Dungeon) : Dungeon :=
  match e with
  | .ok d => d
  | .error _ => default

/-! ## Specification-level predicates -/

/-- A point of the plane lies in a room's rectangle (tiles
`[x, x+width) × [y, y+height)`). -/
def inRect (room : Room) (p : Int × Int) : Prop :=
  room.x ≤ p.1 ∧ p.1 < room.x + room.width ∧ room.y ≤ p.2 ∧ p.2 < room.y + room.height

/-- A point lies in a room's padded rectangle: the rectangle expanded by the
fixed 2-tile padding margin on all sides. -/
def inPaddedRect (room : Room) (p : Int × Int) : Prop :=
  room.x - 2 ≤ p.1 ∧ p.1 < room.x + room.width + 2 ∧
  room.y - 2 ≤ p.2 ∧ p.2 < room.y + room.height + 2

/-- The padded rectangles of the two rooms are disjoint (the property claimed
in the specification). -/
def PaddedDisjoint (r1 r2 : Room) : Prop :=
  ∀ p : Int × Int, ¬ (inPaddedRect r1 p ∧ inPaddedRect r2 p)

/-- The separation the accepted check actually guarantees: a gap of at least
two tiles along some axis. -/
def sepOK (r1 r2 : Room) : Prop :=
  r2.x + r2.width + 2 ≤ r1.x ∨ r1.x + r1.width + 2 ≤ r2.x ∨
  r2.y + r2.height + 2 ≤ r1.y ∨ r1.y + r1.height + 2 ≤ r2.y

/-- Each room's padded rectangle misses the other room's (unpadded) rectangle. -/
def PaddedSep (r1 r2 : Room) : Prop :=
  (∀ p, inPaddedRect r1 p → ¬ inRect r2 p) ∧ (∀ p, inPaddedRect r2 p → ¬ inRect r1 p)

/-- The undirected adjacency recorded in the room catalog, between room ids. -/
def roomAdj (rooms : List Room) (a b : Nat) : Prop :=
  (∃ room ∈ rooms, room.id = a ∧ b ∈ room.connections) ∨
  (∃ room ∈ rooms, room.id = b ∧ a ∈ room.connections)

/-- Reachability along recorded adjacency edges. -/
def roomReach (rooms : List Room) (a b : Nat) : Prop :=
  Relation.ReflTransGen (roomAdj rooms) a b

/-- Adjacency between catalog positions (`connections` hold list positions of
the spanning loop, which coincide with ids). -/
def adjIdx (rooms : List Room) (i j : Nat) : Prop :=
  j ∈ (roomAt rooms i).connections ∨ i ∈ (roomAt rooms j).connections

/-- Room ids coincide with catalog positions. -/
def IdInv (rooms : List Room) : Prop :=
  ∀ i, i < rooms.length → (roomAt rooms i).id = i

/-- Number of rooms of a given role. -/
def typeCount (rooms : List Room) (t : RoomType) : Nat :=
  rooms.countP (fun room => decide (room.room_type = t))

/-- Number of grid cells holding a given tile tag. -/
def countTile (g : Grid) (t : TileType) : Nat :=
  (g.map (fun row => row.countP (fun c => decide (c = t)))).sum

/-- All tiles of the grid satisfy `P`. -/
def GridVals (P : TileType → Prop) (g : Grid) : Prop :=
  ∀ row ∈ g, ∀ t ∈ row, P t

/-- Every positioned encounter of every room lies in its owning room's
interior (the rectangle shrunk by one tile on every side). -/
def EncOK (rooms : List Room) : Prop :=
  ∀ room ∈ rooms, ∀ e ∈ room.encounters, ∀ px py, e.position = some (px, py) →
    room.x + 1 ≤ px ∧ px ≤ room.x + room.width - 2 ∧
    room.y + 1 ≤ py ∧ py ≤ room.y + room.height - 2

/-- The room record built for an accepted secret-room position. -/
def mkSecretRoom (nid : Nat) (x y width height : Int) : Room :=
  { id := nid, room_type := .secret, x := x, y := y, width := width, height := height }

/-! ### Concrete runs used as witnesses and counterexamples

An entropy stream is read off a finite list of draws (`0` past its end); the
value `big = 2^52` makes `random.random()` read as `1/2`, so a roll of `0`
falls below every positive chance and a roll of `big` above any chance
`< 1/2`. -/

/-- A stream that reads its draws off a list. -/
def L (l : List Nat) : Nat → Nat := fun i => l.getD i 0

/-- A draw that `random.random()` turns into `1/2`. -/
def big : Nat := 2 ^ 52

/-- Four fixed-size rooms on a 20×20 grid; every non-special room becomes a
combat room, no traps, no secret roll. -/
def cfg1 : DungeonConfig :=
  { name := "a", theme := "b", difficulty := "c", min_rooms := 4, max_rooms := 4,
    min_room_size := 4, max_room_size := 4, width := 20, height := 20,
    combat_room_chance := 1, puzzle_room_chance := 0, treasure_room_chance := 0,
    secret_room_chance := 0, trap_density := 0,
    monster_table := [⟨"m", 1⟩], loot_table := [], boss_config := none }

/-- Draws placing the four rooms of `cfg1` at (2,2), (8,2), (14,2) and (2,8),
then populating them. -/
def s1 : List Nat :=
  [0,  0,0,0,0,  0,0,6,0,  0,0,12,0,  0,0,0,6,  0,0,0,  0,  0,2,  0,
   0,0,0,0,0,big,  0,0,0,0,0,big,  big]

/-- A single fixed-size room on a 12×12 grid with a boss descriptor. -/
def cfg2 : DungeonConfig :=
  { name := "a", theme := "b", difficulty := "c", min_rooms := 1, max_rooms := 1,
    min_room_size := 4, max_room_size := 4, width := 12, height := 12,
    secret_room_chance := 0, trap_density := 1/4,
    monster_table := [], loot_table := [], boss_config := some ⟨"dragon", 10, ["fire"]⟩ }

/-- A zero-room configuration whose runs succeed (the secret roll of `1/2`
falls above the default 5% chance). -/
def cfg3 : DungeonConfig :=
  { name := "a", theme := "b", difficulty := "c", min_rooms := 0, max_rooms := 0,
    width := 10, height := 10 }

/-- The ambient generator behind `cfg3` runs: every draw is `big`. -/
def p3 : Int → Nat → Nat := fun _ _ => big

/-- A two-room configuration. -/
def cfg4 : DungeonConfig :=
  { name := "a", theme := "b", difficulty := "c", min_rooms := 2, max_rooms := 2,
    min_room_size := 4, max_room_size := 4, width := 20, height := 20,
    monster_table := [], loot_table := [], boss_config := none }

/-- Draws placing the two rooms of `cfg4` at (2,2) and (8,2). -/
def s4 : List Nat := [0,  0,0,0,0,  0,0,6,0,  0]

/-- A zero-room configuration with the default 5% secret-room chance. -/
def cfg5 : DungeonConfig :=
  { name := "a", theme := "b", difficulty := "c", min_rooms := 0, max_rooms := 0,
    width := 10, height := 10 }

/-- Draws under which the `cfg5` secret roll (a `0` draw, read as `0 < 1/20`)
enters the secret-room loop. -/
def s5 : List Nat := [0, 0]

/-- A single fixed-size room on a 12×12 grid with trap density 1/4. -/
def cfg6 : DungeonConfig :=
  { name := "a", theme := "b", difficulty := "c", min_rooms := 1, max_rooms := 1,
    min_room_size := 4, max_room_size := 4, width := 12, height := 12,
    secret_room_chance := 0, trap_density := 1/4,
    monster_table := [], loot_table := [], boss_config := none }

/-- Draws placing the single room of `cfg2`/`cfg6` at (2,2) and sampling four
trap tiles. -/
def s6 : List Nat := [0,  0,0,0,0,  0,0,0,0,  big]

/-- The state reached by a successful prefix of `generate` (projection used to
state concrete facts). -/
def upSt (e : Except String (GenSt × Rand)) : GenSt :=
  match e with | .ok p => p.1 | .error _ => ⟨[], [], 0⟩

/-- The random-source cursor reached by a successful prefix of `generate`. -/
def upRand (e : Except String (GenSt × Rand)) : Rand :=
  match e with | .ok p => p.2 | .error _ => ⟨fun _ => 0, 0⟩

/-- How many rooms a (possibly failed) placement phase delivered. -/
def roomsPlaced (e : Except String (GenSt × Rand)) : Nat :=
  match e with | .ok p => p.1.rooms.length | .error _ => 0

/-! ## Basic lemmas about the random primitives -/

theorem pyRandint_ok_bounds {a b : Int} {r r' : Rand} {v : Int}
    (h : pyRandint a b r = .ok (v, r')) : a ≤ v ∧ v ≤ b := by
  unfold pyRandint at h
  split at h
  · next hab =>
    simp only [Rand.next, Except.ok.injEq, Prod.mk.injEq] at h
    obtain ⟨hv, -⟩ := h
    have h1 : 0 ≤ ((r.stream r.pos : Int)) % (b - a + 1) :=
      Int.emod_nonneg _ (by omega)
    have h2 : ((r.stream r.pos : Int)) % (b - a + 1) < b - a + 1 :=
      Int.emod_lt_of_pos _ (by omega)
    omega
  · simp at h

theorem pyChoiceIdx_ok_lt {n : Nat} {r r' : Rand} {i : Nat}
    (h : pyChoiceIdx n r = .ok (i, r')) : i < n := by
  unfold pyChoiceIdx at h
  split at h
  · simp at h
  · next hn =>
    simp only [Rand.next, Except.ok.injEq, Prod.mk.injEq] at h
    obtain ⟨hv, -⟩ := h
    have := Nat.mod_lt (r.stream r.pos) (Nat.pos_of_ne_zero hn)
    omega

theorem pySampleAux_length_le {α : Type} :
    ∀ (k : Nat) (pool : List α) (r : Rand), (pySampleAux k pool r).1.length ≤ k := by
  intro k
  induction k with
  | zero => intro pool r; simp [pySampleAux]
  | succ k ih =>
    intro pool r
    match pool with
    | [] => simp [pySampleAux]
    | p :: ps =>
      simp only [pySampleAux, List.length_cons]
      have := ih ((p :: ps).set (r.next.1 % (ps.length + 1)) ((p :: ps).getLastD p)).dropLast
        r.next.2
      omega

theorem pySampleAux_subset {α : Type} :
    ∀ (k : Nat) (pool : List α) (r : Rand), ∀ a ∈ (pySampleAux k pool r).1, a ∈ pool := by
  intro k
  induction k with
  | zero => intro pool r; simp [pySampleAux]
  | succ k ih =>
    intro pool r
    match pool with
    | [] => simp [pySampleAux]
    | p :: ps =>
      intro a ha
      simp only [pySampleAux, List.mem_cons] at ha
      have hlast : (p :: ps).getLastD p ∈ p :: ps := by
        have h := List.getLastD_mem_cons (p :: ps) p
        rcases List.mem_cons.mp h with h | h
        · rw [h]; exact List.mem_cons_self _ _
        · exact h
      rcases ha with ha | ha
      · subst ha
        have hj : r.next.1 % (p :: ps).length < (p :: ps).length :=
          Nat.mod_lt _ (by simp)
        rw [List.getD_eq_getElem?_getD, List.getElem?_eq_getElem hj]
        simp only [Option.getD_some]
        exact List.getElem_mem hj
      · have hsub := ih _ _ _ ha
        have hb' := List.dropLast_subset _ hsub
        rcases List.mem_or_eq_of_mem_set hb' with h | h
        · exact h
        · rw [h]; exact hlast

/-! ## List helpers -/

theorem roomAt_eq_get (rooms : List Room) (i : Nat) (h : i < rooms.length) :
    roomAt rooms i = rooms.get ⟨i, h⟩ := by
  simp [roomAt, List.getD_eq_getElem?_getD, List.getElem?_eq_getElem h]

theorem roomAt_mem (rooms : List Room) (i : Nat) (h : i < rooms.length) :
    roomAt rooms i ∈ rooms := by
  rw [roomAt_eq_get rooms i h]; exact List.get_mem _ _ _

theorem mem_iff_roomAt {rooms : List Room} {room : Room} :
    room ∈ rooms ↔ ∃ i, i < rooms.length ∧ roomAt rooms i = room := by
  constructor
  · intro h
    obtain ⟨⟨i, hi⟩, rfl⟩ := List.mem_iff_get.mp h
    exact ⟨i, hi, roomAt_eq_get _ _ hi⟩
  · rintro ⟨i, hi, rfl⟩
    exact roomAt_mem _ _ hi

theorem roomAt_set_self (rooms : List Room) (i : Nat) (a : Room) (h : i < rooms.length) :
    roomAt (rooms.set i a) i = a := by
  simp [roomAt, List.getD_eq_getElem?_getD, List.getElem?_set_self', h]

theorem roomAt_set_ne (rooms : List Room) (i j : Nat) (a : Room) (hne : j ≠ i) :
    roomAt (rooms.set i a) j = roomAt rooms j := by
  simp [roomAt, List.getD_eq_getElem?_getD, List.getElem?_set_ne (by omega : i ≠ j)]

theorem roomAt_of_le (rooms : List Room) (i : Nat) (h : rooms.length ≤ i) :
    roomAt rooms i = default := by
  simp [roomAt, List.getD_eq_getElem?_getD, List.getElem?_eq_none h]

theorem roomAt_append_right (rooms : List Room) (s : Room) :
    roomAt (rooms ++ [s]) rooms.length = s := by
  simp [roomAt, List.getD_eq_getElem?_getD]

theorem roomAt_append_left (rooms : List Room) (s : Room) (i : Nat) (h : i < rooms.length) :
    roomAt (rooms ++ [s]) i = roomAt rooms i := by
  simp [roomAt, List.getD_eq_getElem?_getD, List.getElem?_append_left h]

theorem set_append_last (rooms : List Room) (s s' : Room) :
    (rooms ++ [s]).set rooms.length s' = rooms ++ [s'] := by
  rw [List.set_append_right _ _ (le_refl _)]
  simp

theorem countP_set_eq {α : Type} (p : α → Bool) (dflt : α) :
    ∀ (l : List α) (i : Nat) (a : α), p a = p (l.getD i dflt) →
      (l.set i a).countP p = l.countP p := by
  intro l
  induction l with
  | nil => intro i a _; simp
  | cons x xs ih =>
    intro i a h
    match i with
    | 0 =>
      simp only [List.getD_cons_zero] at h
      simp [List.countP_cons, h]
    | i + 1 =>
      simp only [List.getD_cons_succ] at h
      simp [List.countP_cons, ih i a h]

theorem countP_set_add_one {α : Type} (p : α → Bool) (dflt : α) :
    ∀ (l : List α) (i : Nat) (a : α), i < l.length → p a = true →
      p (l.getD i dflt) = false → (l.set i a).countP p = l.countP p + 1 := by
  intro l
  induction l with
  | nil => intro i a h; simp at h
  | cons x xs ih =>
    intro i a hi ha hold
    match i with
    | 0 =>
      simp only [List.getD_cons_zero] at hold
      simp [List.countP_cons, ha, hold]
    | i + 1 =>
      simp only [List.getD_cons_succ] at hold
      simp only [List.length_cons, Nat.add_lt_add_iff_right] at hi
      simp [List.countP_cons, ih i a hi ha hold]
      omega

theorem countP_eq_zero_of_all {α : Type} {p : α → Bool} {l : List α}
    (h : ∀ a ∈ l, p a = false) : l.countP p = 0 := by
  induction l with
  | nil => simp
  | cons x xs ih =>
    simp [List.countP_cons, h x (by simp), ih (fun a ha => h a (by simp [ha]))]

/-! ## The placement invariant -/

theorem sepOK_symm {r1 r2 : Room} (h : sepOK r1 r2) : sepOK r2 r1 := by
  unfold sepOK at *; omega

theorem check_false_sep {rooms : List Room} {x y w h : Int}
    (hc : checkRoomOverlap rooms x y w h = false) :
    ∀ room ∈ rooms,
      room.x + room.width + 2 ≤ x ∨ x + w + 2 ≤ room.x ∨
      room.y + room.height + 2 ≤ y ∨ y + h + 2 ≤ room.y := by
  intro room hmem
  simp only [checkRoomOverlap, List.any_eq_false, Bool.and_eq_true, decide_eq_true_eq,
    not_and, not_lt, gt_iff_lt] at hc
  have := hc room hmem
  omega

theorem check_true_of_overlap {rooms : List Room} {x y w h : Int} {room : Room}
    (hmem : room ∈ rooms)
    (h1 : x < room.x + room.width + 2) (h2 : room.x < x + w + 2)
    (h3 : y < room.y + room.height + 2) (h4 : room.y < y + h + 2) :
    checkRoomOverlap rooms x y w h = true := by
  simp only [checkRoomOverlap, List.any_eq_true, Bool.and_eq_true, decide_eq_true_eq]
  refine ⟨room, hmem, ?_⟩
  omega

/-- The state invariant established by the Placement Engine. -/
structure PlacedInv (cfg : DungeonConfig) (st : GenSt) : Prop where
  pair : st.rooms.Pairwise sepOK
  sizes : ∀ room ∈ st.rooms,
    cfg.min_room_size ≤ room.width ∧ room.width ≤ cfg.max_room_size ∧
    cfg.min_room_size ≤ room.height ∧ room.height ≤ cfg.max_room_size
  blank : ∀ room ∈ st.rooms, room.room_type = .corridor ∧ room.connections = [] ∧
    room.encounters = []
  ids : IdInv st.rooms
  next_eq : st.next_room_id = st.rooms.length

theorem placeTrial_inv {cfg : DungeonConfig} {st st' : GenSt} {r r' : Rand}
    (hinv : PlacedInv cfg st) (h : placeTrial cfg st r = .ok (st', r')) :
    PlacedInv cfg st' := by
  unfold placeTrial at h
  split at h
  · exact absurd h (by simp)
  rename_i width r1 heq1
  split at h
  · exact absurd h (by simp)
  rename_i height r2 heq2
  split at h
  · exact absurd h (by simp)
  rename_i x r3 heq3
  split at h
  · exact absurd h (by simp)
  rename_i y r4 heq4
  split at h
  · -- overlap: state unchanged
    obtain ⟨rfl, -⟩ : st = st' ∧ r4 = r' := by
      simpa using h
    exact hinv
  · -- accepted: the new room is separated from every existing room
    rename_i hover
    rw [Bool.not_eq_true] at hover
    obtain ⟨hw1, hw2⟩ := pyRandint_ok_bounds heq1
    obtain ⟨hh1, hh2⟩ := pyRandint_ok_bounds heq2
    have hsep := check_false_sep hover
    obtain ⟨hst, -⟩ : _ ∧ r4 = r' := by simpa using h
    subst hst
    constructor
    · rw [List.pairwise_append]
      refine ⟨hinv.pair, by simp, ?_⟩
      intro a ha b hb
      rw [List.mem_singleton] at hb
      subst hb
      have := hsep a ha
      unfold sepOK
      simp only
      omega
    · intro room hmem
      rcases List.mem_append.mp hmem with hm | hm
      · exact hinv.sizes room hm
      · rw [List.mem_singleton] at hm
        subst hm
        exact ⟨hw1, hw2, hh1, hh2⟩
    · intro room hmem
      rcases List.mem_append.mp hmem with hm | hm
      · exact hinv.blank room hm
      · rw [List.mem_singleton] at hm
        subst hm
        exact ⟨rfl, rfl, rfl⟩
    · intro i hi
      simp only [List.length_append, List.length_singleton] at hi
      rcases Nat.lt_or_ge i st.rooms.length with hlt | hge
      · rw [roomAt_append_left _ _ _ hlt]
        exact hinv.ids i hlt
      · have : i = st.rooms.length := by omega
        subst this
        rw [roomAt_append_right]
        simpa using hinv.next_eq
    · simp [hinv.next_eq]

theorem placeLoop_inv {cfg : DungeonConfig} {num_rooms : Int} :
    ∀ {fuel : Nat} {st st' : GenSt} {r r' : Rand},
      PlacedInv cfg st → placeLoop cfg num_rooms fuel st r = .ok (st', r') →
      PlacedInv cfg st' := by
  intro fuel
  induction fuel with
  | zero =>
    intro st st' r r' hinv h
    obtain ⟨rfl, -⟩ : st = st' ∧ r = r' := by simpa [placeLoop] using h
    exact hinv
  | succ fuel ih =>
    intro st st' r r' hinv h
    unfold placeLoop at h
    split at h
    · obtain ⟨rfl, -⟩ : st = st' ∧ r = r' := by simpa using h
      exact hinv
    · split at h
      · exact absurd h (by simp)
      · rename_i st1 r1 heq
        exact ih (placeTrial_inv hinv heq) h

theorem generateRoomsBsp_inv {cfg : DungeonConfig} {st' : GenSt} {r r' : Rand}
    (h : generateRoomsBsp cfg (initSt cfg) r = .ok (st', r')) :
    PlacedInv cfg st' := by
  unfold generateRoomsBsp at h
  split at h
  · exact absurd h (by simp)
  · rename_i num r1 heq
    have hinit : PlacedInv cfg (initSt cfg) := by
      constructor <;> simp [initSt, IdInv]
    exact placeLoop_inv hinit h

/-! ## Catalog relations across phases -/

/-- The Connectivity Builder only grows `connections`; each room's other
fields are untouched. -/
def ConnExt (rs rs' : List Room) : Prop :=
  rs'.length = rs.length ∧
  ∀ i : Nat,
    (roomAt rs' i).id = (roomAt rs i).id ∧
    (roomAt rs' i).room_type = (roomAt rs i).room_type ∧
    (roomAt rs' i).x = (roomAt rs i).x ∧ (roomAt rs' i).y = (roomAt rs i).y ∧
    (roomAt rs' i).width = (roomAt rs i).width ∧
    (roomAt rs' i).height = (roomAt rs i).height ∧
    (roomAt rs' i).encounters = (roomAt rs i).encounters ∧
    ∀ v ∈ (roomAt rs i).connections, v ∈ (roomAt rs' i).connections

theorem connExt_refl (rs : List Room) : ConnExt rs rs :=
  ⟨rfl, fun _ => ⟨rfl, rfl, rfl, rfl, rfl, rfl, rfl, fun _ hv => hv⟩⟩

theorem connExt_trans {rs1 rs2 rs3 : List Room}
    (h1 : ConnExt rs1 rs2) (h2 : ConnExt rs2 rs3) : ConnExt rs1 rs3 := by
  refine ⟨h2.1.trans h1.1, fun i => ?_⟩
  obtain ⟨a1, a2, a3, a4, a5, a6, a7, a8⟩ := h1.2 i
  obtain ⟨b1, b2, b3, b4, b5, b6, b7, b8⟩ := h2.2 i
  exact ⟨b1.trans a1, b2.trans a2, b3.trans a3, b4.trans a4, b5.trans a5,
    b6.trans a6, b7.trans a7, fun v hv => b8 v (a8 v hv)⟩

theorem connExt_appendConn (rs : List Room) (i v : Nat) : ConnExt rs (appendConn rs i v) := by
  unfold appendConn
  by_cases hi : i < rs.length
  · refine ⟨by simp, fun j => ?_⟩
    by_cases hj : j = i
    · subst hj
      rw [roomAt_set_self _ _ _ hi]
      exact ⟨rfl, rfl, rfl, rfl, rfl, rfl, rfl, fun w hw => by simp [hw]⟩
    · rw [roomAt_set_ne _ _ _ _ hj]
      exact ⟨rfl, rfl, rfl, rfl, rfl, rfl, rfl, fun w hw => hw⟩
  · rw [List.set_eq_of_length_le (by omega)]
    exact connExt_refl rs

theorem appendConn_mem_self (rs : List Room) (i v : Nat) (hi : i < rs.length) :
    v ∈ (roomAt (appendConn rs i v) i).connections := by
  unfold appendConn
  rw [roomAt_set_self _ _ _ hi]
  simp

theorem adjIdx_mono {rs rs' : List Room} (h : ConnExt rs rs') {i j : Nat}
    (ha : adjIdx rs i j) : adjIdx rs' i j := by
  rcases ha with ha | ha
  · obtain ⟨-, -, -, -, -, -, -, hsub⟩ := h.2 i
    exact Or.inl (hsub j ha)
  · obtain ⟨-, -, -, -, -, -, -, hsub⟩ := h.2 j
    exact Or.inr (hsub i ha)

theorem reach_mono {rs rs' : List Room} (h : ConnExt rs rs') {i j : Nat}
    (hr : Relation.ReflTransGen (adjIdx rs) i j) :
    Relation.ReflTransGen (adjIdx rs') i j :=
  Relation.ReflTransGen.mono (fun _ _ ha => adjIdx_mono h ha) hr

/-! ## The best-pair scan -/

theorem bestStep_snd (rooms : List Room) (acc : Option Int × Nat × Nat) (cu : Nat × Nat) :
    (bestStep rooms acc cu).2 = acc.2 ∨ (bestStep rooms acc cu).2 = cu := by
  unfold bestStep
  rcases acc with ⟨b, p⟩
  cases b
  · simp
  · simp only
    split
    · simp
    · simp

theorem foldl_bestStep_mem (rooms : List Room) :
    ∀ (l : List (Nat × Nat)) (acc : Option Int × Nat × Nat),
      (l.foldl (bestStep rooms) acc).2 = acc.2 ∨ (l.foldl (bestStep rooms) acc).2 ∈ l := by
  intro l
  induction l with
  | nil => intro acc; left; rfl
  | cons x xs ih =>
    intro acc
    rw [List.foldl_cons]
    rcases ih (bestStep rooms acc x) with h | h
    · rcases bestStep_snd rooms acc x with h2 | h2
      · left; rw [h, h2]
      · right; rw [h, h2]; exact List.mem_cons_self _ _
    · right; exact List.mem_cons_of_mem _ h

theorem findBestPair_mem (rooms : List Room) (connected unconnected : List Nat)
    (hc : connected ≠ []) (hu : unconnected ≠ []) :
    (findBestPair rooms connected unconnected).1 ∈ connected ∧
    (findBestPair rooms connected unconnected).2 ∈ unconnected := by
  have hne : allPairs connected unconnected ≠ [] := by
    obtain ⟨c, cs, rfl⟩ := List.exists_cons_of_ne_nil hc
    obtain ⟨u, us, rfl⟩ := List.exists_cons_of_ne_nil hu
    simp [allPairs]
  have hmem : findBestPair rooms connected unconnected ∈ allPairs connected unconnected := by
    obtain ⟨x, xs, hl⟩ := List.exists_cons_of_ne_nil hne
    unfold findBestPair
    rw [hl, List.foldl_cons]
    have hfirst : bestStep rooms ((none : Option Int), ((0 : Nat), (1 : Nat))) x =
        (some (roomDistSq (roomAt rooms x.1) (roomAt rooms x.2)), x) := rfl
    rw [hfirst]
    rcases foldl_bestStep_mem rooms xs _ with h2 | h2
    · rw [h2]; exact List.mem_cons_self _ _
    · exact List.mem_cons_of_mem _ h2
  simp only [allPairs, List.mem_flatMap, List.mem_map] at hmem
  obtain ⟨c, hcmem, u, humem, hpair⟩ := hmem
  constructor
  · rw [← hpair]; exact hcmem
  · rw [← hpair]; exact humem

/-! ## Connectivity of the spanning loop -/

theorem mstLoop_spec (cfg : DungeonConfig) :
    ∀ (fuel : Nat) (connected unconnected : List Nat) (st : GenSt) (r : Rand),
      unconnected.length ≤ fuel →
      connected ≠ [] →
      (∀ i ∈ connected, i < st.rooms.length) →
      (∀ i ∈ unconnected, i < st.rooms.length) →
      (∀ i ∈ connected, Relation.ReflTransGen (adjIdx st.rooms) 0 i) →
      ConnExt st.rooms (mstLoop cfg fuel connected unconnected st r).1.rooms ∧
      (mstLoop cfg fuel connected unconnected st r).1.next_room_id = st.next_room_id ∧
      ∀ i ∈ connected ++ unconnected,
        Relation.ReflTransGen (adjIdx (mstLoop cfg fuel connected unconnected st r).1.rooms) 0 i := by
  intro fuel
  induction fuel with
  | zero =>
    intro connected unconnected st r hfuel hc hcb hub hreach
    have hun : unconnected = [] := List.eq_nil_of_length_eq_zero (by omega)
    subst hun
    simp only [mstLoop]
    exact ⟨connExt_refl _, trivial, by simpa using hreach⟩
  | succ fuel ih =>
    intro connected unconnected st r hfuel hc hcb hub hreach
    rcases unconnected with _ | ⟨u0, us⟩
    · simp only [mstLoop]
      exact ⟨connExt_refl _, trivial, by simpa using hreach⟩
    · obtain ⟨hbc, hbu⟩ := findBestPair_mem st.rooms connected (u0 :: us) hc (by simp)
      simp only [mstLoop]
      set b := findBestPair st.rooms connected (u0 :: us) with hbdef
      set R2 := appendConn (appendConn st.rooms b.1 b.2) b.2 b.1 with hR2def
      set gr := carveCorridor cfg st.grid (roomAt st.rooms b.1) (roomAt st.rooms b.2) r
        with hgrdef
      have hext : ConnExt st.rooms R2 :=
        connExt_trans (connExt_appendConn _ _ _) (connExt_appendConn _ _ _)
      have hedge : b.2 ∈ (roomAt R2 b.1).connections := by
        obtain ⟨-, -, -, -, -, -, -, hsub⟩ :=
          (connExt_appendConn (appendConn st.rooms b.1 b.2) b.2 b.1).2 b.1
        exact hsub _ (appendConn_mem_self st.rooms _ _ (hcb _ hbc))
      have hstep := ih (connected ++ [b.2]) ((u0 :: us).erase b.2)
        { st with rooms := R2, grid := gr.1 } gr.2
        (by
          have herase := List.length_erase_of_mem hbu
          simp only [List.length_cons] at hfuel herase
          omega)
        (by simp)
        (by
          intro i hi
          show i < R2.length
          rw [hext.1]
          rcases List.mem_append.mp hi with hi | hi
          · exact hcb i hi
          · rw [List.mem_singleton] at hi
            subst hi
            exact hub _ hbu)
        (by
          intro i hi
          show i < R2.length
          rw [hext.1]
          exact hub i (List.erase_subset _ _ hi))
        (by
          intro i hi
          rcases List.mem_append.mp hi with hi | hi
          · exact reach_mono hext (hreach i hi)
          · rw [List.mem_singleton] at hi
            subst hi
            exact (reach_mono hext (hreach _ hbc)).tail (Or.inl hedge))
      refine ⟨connExt_trans hext hstep.1, hstep.2.1, ?_⟩
      intro i hi
      rcases List.mem_append.mp hi with hi | hi
      · exact hstep.2.2 i (List.mem_append.mpr (Or.inl (List.mem_append.mpr (Or.inl hi))))
      · by_cases hieq : i = b.2
        · subst hieq
          exact hstep.2.2 _ (List.mem_append.mpr (Or.inl (List.mem_append.mpr
            (Or.inr (List.mem_singleton.mpr rfl)))))
        · exact hstep.2.2 i (List.mem_append.mpr
            (Or.inr ((List.mem_erase_of_ne hieq).mpr hi)))

theorem extraLoop_spec (cfg : DungeonConfig) :
    ∀ (k : Nat) (st : GenSt) (r : Rand) (st' : GenSt) (r' : Rand),
      extraLoop cfg k st r = .ok (st', r') →
      ConnExt st.rooms st'.rooms ∧ st'.next_room_id = st.next_room_id := by
  intro k
  induction k with
  | zero =>
    intro st r st' r' h
    obtain ⟨h1, -⟩ : st = st' ∧ r = r' := by simpa [extraLoop] using h
    subst h1
    exact ⟨connExt_refl _, rfl⟩
  | succ k ih =>
    intro st r st' r' h
    unfold extraLoop at h
    split at h
    · exact absurd h (by simp)
    rename_i i1 r1 heq1
    split at h
    · exact absurd h (by simp)
    rename_i i2 r2 heq2
    simp only [] at h
    split at h
    · obtain ⟨hext, hnext⟩ := ih _ _ _ _ h
      exact ⟨connExt_trans (connExt_trans
        (connExt_appendConn st.rooms i1 (roomAt st.rooms i2).id)
        (connExt_appendConn (appendConn st.rooms i1 (roomAt st.rooms i2).id) i2
          (roomAt st.rooms i1).id)) hext, hnext⟩
    · exact ih _ _ _ _ h

theorem connectRooms_spec {cfg : DungeonConfig} {st st' : GenSt} {r r' : Rand}
    (h : connectRooms cfg st r = .ok (st', r')) :
    ConnExt st.rooms st'.rooms ∧ st'.next_room_id = st.next_room_id ∧
    (2 ≤ st.rooms.length →
      ∀ i, i < st'.rooms.length → Relation.ReflTransGen (adjIdx st'.rooms) 0 i) := by
  unfold connectRooms at h
  split at h
  · rename_i hn
    obtain ⟨h1, -⟩ : st = st' ∧ r = r' := by simpa using h
    subst h1
    exact ⟨connExt_refl _, rfl, by omega⟩
  · rename_i hn
    rw [not_lt] at hn
    simp only [] at h
    have hmst := mstLoop_spec cfg (st.rooms.length - 1) [0]
      (List.range' 1 (st.rooms.length - 1)) st r
      (by simp)
      (by simp)
      (by intro i hi; rw [List.mem_singleton] at hi; subst hi; omega)
      (by intro i hi; rw [List.mem_range'_1] at hi; omega)
      (by intro i hi; rw [List.mem_singleton] at hi; subst hi; exact .refl)
    split at h
    · exact absurd h (by simp)
    · rename_i extra r2 heq
      obtain ⟨hext2, hnext2⟩ := extraLoop_spec cfg _ _ _ _ _ h
      refine ⟨connExt_trans hmst.1 hext2, by rw [hnext2, hmst.2.1], ?_⟩
      intro _hge i hi
      have hlen : st'.rooms.length = st.rooms.length := by
        rw [hext2.1, hmst.1.1]
      have himem : i ∈ ([0] : List Nat) ++ List.range' 1 (st.rooms.length - 1) := by
        rcases Nat.eq_zero_or_pos i with rfl | hpos
        · simp
        · refine List.mem_append.mpr (Or.inr ?_)
          rw [List.mem_range'_1]
          omega
      exact reach_mono hext2 (hmst.2.2 i himem)

/-! ## The Role Assignor -/

/-- The Role Assignor and Content Populator preserve identity, geometry and
connections of every room. -/
def PopExt (rs rs' : List Room) : Prop :=
  rs'.length = rs.length ∧
  ∀ i : Nat, (roomAt rs' i).id = (roomAt rs i).id ∧
    (roomAt rs' i).x = (roomAt rs i).x ∧ (roomAt rs' i).y = (roomAt rs i).y ∧
    (roomAt rs' i).width = (roomAt rs i).width ∧
    (roomAt rs' i).height = (roomAt rs i).height ∧
    (roomAt rs' i).connections = (roomAt rs i).connections

theorem popExt_refl (rs : List Room) : PopExt rs rs :=
  ⟨rfl, fun _ => ⟨rfl, rfl, rfl, rfl, rfl, rfl⟩⟩

theorem popExt_trans {rs1 rs2 rs3 : List Room}
    (h1 : PopExt rs1 rs2) (h2 : PopExt rs2 rs3) : PopExt rs1 rs3 := by
  refine ⟨h2.1.trans h1.1, fun i => ?_⟩
  obtain ⟨a1, a2, a3, a4, a5, a6⟩ := h1.2 i
  obtain ⟨b1, b2, b3, b4, b5, b6⟩ := h2.2 i
  exact ⟨b1.trans a1, b2.trans a2, b3.trans a3, b4.trans a4, b5.trans a5, b6.trans a6⟩

theorem popExt_set (rs : List Room) (i : Nat) (a : Room)
    (hid : a.id = (roomAt rs i).id) (hx : a.x = (roomAt rs i).x)
    (hy : a.y = (roomAt rs i).y) (hw : a.width = (roomAt rs i).width)
    (hh : a.height = (roomAt rs i).height)
    (hc : a.connections = (roomAt rs i).connections) :
    PopExt rs (rs.set i a) := by
  by_cases hlt : i < rs.length
  · refine ⟨by simp, fun j => ?_⟩
    by_cases hj : j = i
    · subst hj
      rw [roomAt_set_self _ _ _ hlt]
      exact ⟨hid, hx, hy, hw, hh, hc⟩
    · rw [roomAt_set_ne _ _ _ _ hj]
      exact ⟨rfl, rfl, rfl, rfl, rfl, rfl⟩
  · rw [List.set_eq_of_length_le (by omega)]
    exact popExt_refl rs

theorem adjIdx_of_popExt {rs rs' : List Room} (h : PopExt rs rs') {i j : Nat}
    (ha : adjIdx rs i j) : adjIdx rs' i j := by
  rcases ha with ha | ha
  · obtain ⟨-, -, -, -, -, hc⟩ := h.2 i
    exact Or.inl (by rw [hc]; exact ha)
  · obtain ⟨-, -, -, -, -, hc⟩ := h.2 j
    exact Or.inr (by rw [hc]; exact ha)

/-- Pointwise preservation of identity and geometry, common to the connect,
role-assignment and populate phases. -/
def GeomEq (rs rs' : List Room) : Prop :=
  rs'.length = rs.length ∧
  ∀ i : Nat, (roomAt rs' i).id = (roomAt rs i).id ∧
    (roomAt rs' i).x = (roomAt rs i).x ∧ (roomAt rs' i).y = (roomAt rs i).y ∧
    (roomAt rs' i).width = (roomAt rs i).width ∧
    (roomAt rs' i).height = (roomAt rs i).height

theorem connExt_geomEq {rs rs' : List Room} (h : ConnExt rs rs') : GeomEq rs rs' := by
  refine ⟨h.1, fun i => ?_⟩
  obtain ⟨a1, -, a3, a4, a5, a6, -, -⟩ := h.2 i
  exact ⟨a1, a3, a4, a5, a6⟩

theorem popExt_geomEq {rs rs' : List Room} (h : PopExt rs rs') : GeomEq rs rs' := by
  refine ⟨h.1, fun i => ?_⟩
  obtain ⟨a1, a2, a3, a4, a5, -⟩ := h.2 i
  exact ⟨a1, a2, a3, a4, a5⟩

theorem geomEq_trans {rs1 rs2 rs3 : List Room}
    (h1 : GeomEq rs1 rs2) (h2 : GeomEq rs2 rs3) : GeomEq rs1 rs3 := by
  refine ⟨h2.1.trans h1.1, fun i => ?_⟩
  obtain ⟨a1, a2, a3, a4, a5⟩ := h1.2 i
  obtain ⟨b1, b2, b3, b4, b5⟩ := h2.2 i
  exact ⟨b1.trans a1, b2.trans a2, b3.trans a3, b4.trans a4, b5.trans a5⟩

theorem pairwise_sepOK_of_geomEq {rs rs' : List Room} (h : GeomEq rs rs')
    (hp : rs.Pairwise sepOK) : rs'.Pairwise sepOK := by
  rw [List.pairwise_iff_get] at hp ⊢
  intro i j hij
  have hlen := h.1
  have hi' : (i : Nat) < rs.length := by have := i.2; omega
  have hj' : (j : Nat) < rs.length := by have := j.2; omega
  have hp' := hp ⟨i, hi'⟩ ⟨j, hj'⟩ hij
  rw [← roomAt_eq_get rs _ hi', ← roomAt_eq_get rs _ hj'] at hp'
  rw [← roomAt_eq_get rs' _ i.2, ← roomAt_eq_get rs' _ j.2]
  obtain ⟨-, hx1, hy1, hw1, hh1⟩ := h.2 i
  obtain ⟨-, hx2, hy2, hw2, hh2⟩ := h.2 j
  unfold sepOK at hp' ⊢
  omega

theorem idInv_of_geomEq {rs rs' : List Room} (h : GeomEq rs rs') (hi : IdInv rs) :
    IdInv rs' := by
  intro i hlt
  have hlen := h.1
  rw [(h.2 i).1]
  exact hi i (by omega)

theorem sizes_of_geomEq {rs rs' : List Room} (h : GeomEq rs rs')
    (hs : ∀ room ∈ rs, 0 ≤ room.width ∧ 0 ≤ room.height) :
    ∀ room ∈ rs', 0 ≤ room.width ∧ 0 ≤ room.height := by
  intro room hmem
  have hlen := h.1
  obtain ⟨i, hi, rfl⟩ := mem_iff_roomAt.mp hmem
  obtain ⟨-, -, -, hw, hh⟩ := h.2 i
  have := hs (roomAt rs i) (roomAt_mem _ _ (by omega))
  omega

theorem sq_pos_of_ne {a : Int} (h : a ≠ 0) : 0 < a ^ 2 := by
  have h1 : a ^ 2 ≠ 0 := pow_ne_zero _ h
  have h2 : 0 ≤ a ^ 2 := sq_nonneg a
  omega

theorem roomDistSq_pos {r1 r2 : Room} (h : roomCenter r1 ≠ roomCenter r2) :
    0 < roomDistSq r1 r2 := by
  simp only [roomDistSq]
  have h1 : (roomCenter r1).1 ≠ (roomCenter r2).1 ∨ (roomCenter r1).2 ≠ (roomCenter r2).2 := by
    by_contra hc
    push_neg at hc
    exact h (Prod.ext hc.1 hc.2)
  rcases h1 with h1 | h1
  · have hpos := sq_pos_of_ne (sub_ne_zero.mpr h1)
    have := sq_nonneg ((roomCenter r1).2 - (roomCenter r2).2)
    omega
  · have hpos := sq_pos_of_ne (sub_ne_zero.mpr h1)
    have := sq_nonneg ((roomCenter r1).1 - (roomCenter r2).1)
    omega

theorem roomDistSq_self (room : Room) : roomDistSq room room = 0 := by
  simp [roomDistSq]

theorem centers_ne_of_sepOK {r1 r2 : Room} (h : sepOK r1 r2)
    (h1w : 0 ≤ r1.width) (h1h : 0 ≤ r1.height)
    (h2w : 0 ≤ r2.width) (h2h : 0 ≤ r2.height) :
    roomCenter r1 ≠ roomCenter r2 := by
  unfold sepOK at h
  intro hc
  unfold roomCenter at hc
  rw [Prod.mk.injEq] at hc
  omega

theorem foldl_argsel_mem (f : Nat → Nat → Nat)
    (hf : ∀ acc i, f acc i = acc ∨ f acc i = i) :
    ∀ (l : List Nat) (acc : Nat), l.foldl f acc = acc ∨ l.foldl f acc ∈ l := by
  intro l
  induction l with
  | nil => intro acc; left; rfl
  | cons x xs ih =>
    intro acc
    rw [List.foldl_cons]
    rcases ih (f acc x) with h | h
    · rcases hf acc x with h2 | h2
      · left; rw [h, h2]
      · right; rw [h, h2]; exact List.mem_cons_self _ _
    · right; exact List.mem_cons_of_mem _ h

theorem argminIdx_lt (key : Room → Int) (rooms : List Room) (h : rooms ≠ []) :
    argminIdx key rooms < rooms.length := by
  unfold argminIdx
  have hlen : 0 < rooms.length := List.length_pos.mpr h
  rcases foldl_argsel_mem
      (fun best i => if key (roomAt rooms i) < key (roomAt rooms best) then i else best)
      (fun acc i => by
        beta_reduce
        split
        · exact Or.inr rfl
        · exact Or.inl rfl)
      (List.range rooms.length) 0 with h1 | h1
  · rw [h1]; exact hlen
  · exact List.mem_range.mp h1

theorem argmaxIdx_lt (key : Room → Int) (rooms : List Room) (h : rooms ≠ []) :
    argmaxIdx key rooms < rooms.length := by
  unfold argmaxIdx
  have hlen : 0 < rooms.length := List.length_pos.mpr h
  rcases foldl_argsel_mem
      (fun best i => if key (roomAt rooms best) < key (roomAt rooms i) then i else best)
      (fun acc i => by
        beta_reduce
        split
        · exact Or.inr rfl
        · exact Or.inl rfl)
      (List.range rooms.length) 0 with h1 | h1
  · rw [h1]; exact hlen
  · exact List.mem_range.mp h1

theorem foldl_argmax_le (key : Room → Int) (rooms : List Room) :
    ∀ (l : List Nat) (acc : Nat),
      key (roomAt rooms acc) ≤ key (roomAt rooms (l.foldl
        (fun best i => if key (roomAt rooms best) < key (roomAt rooms i) then i else best)
        acc)) ∧
      ∀ i ∈ l, key (roomAt rooms i) ≤ key (roomAt rooms (l.foldl
        (fun best i => if key (roomAt rooms best) < key (roomAt rooms i) then i else best)
        acc)) := by
  intro l
  induction l with
  | nil => intro acc; exact ⟨le_refl _, by simp⟩
  | cons x xs ih =>
    intro acc
    rw [List.foldl_cons]
    obtain ⟨ih1, ih2⟩ := ih (if key (roomAt rooms acc) < key (roomAt rooms x) then x else acc)
    have hstep1 : key (roomAt rooms acc) ≤
        key (roomAt rooms (if key (roomAt rooms acc) < key (roomAt rooms x) then x else acc)) := by
      split
      · omega
      · exact le_refl _
    have hstep2 : key (roomAt rooms x) ≤
        key (roomAt rooms (if key (roomAt rooms acc) < key (roomAt rooms x) then x else acc)) := by
      split
      · exact le_refl _
      · omega
    refine ⟨hstep1.trans ih1, fun i hi => ?_⟩
    rcases List.mem_cons.mp hi with hi | hi
    · subst hi; exact hstep2.trans ih1
    · exact ih2 i hi

theorem argmaxIdx_le (key : Room → Int) (rooms : List Room) :
    ∀ i, i < rooms.length →
      key (roomAt rooms i) ≤ key (roomAt rooms (argmaxIdx key rooms)) := by
  intro i hi
  exact (foldl_argmax_le key rooms (List.range rooms.length) 0).2 i (List.mem_range.mpr hi)


theorem enc_eq_set (rs : List Room) (j : Nat) (a : Room)
    (ha : a.encounters = (roomAt rs j).encounters) :
    ∀ i, (roomAt (rs.set j a) i).encounters = (roomAt rs i).encounters := by
  intro i
  by_cases hlt : j < rs.length
  · by_cases hij : i = j
    · subst hij; rw [roomAt_set_self _ _ _ hlt, ha]
    · rw [roomAt_set_ne _ _ _ _ hij]
  · rw [List.set_eq_of_length_le (by omega)]

theorem type_eq_set (rs : List Room) (j : Nat) (a : Room)
    (ha : a.room_type = (roomAt rs j).room_type) :
    ∀ i, (roomAt (rs.set j a) i).room_type = (roomAt rs i).room_type := by
  intro i
  by_cases hlt : j < rs.length
  · by_cases hij : i = j
    · subst hij; rw [roomAt_set_self _ _ _ hlt, ha]
    · rw [roomAt_set_ne _ _ _ _ hij]
  · rw [List.set_eq_of_length_le (by omega)]

theorem placeSpecialRooms_grid (cfg : DungeonConfig) (st : GenSt) :
    (placeSpecialRooms cfg st).grid = st.grid := by
  unfold placeSpecialRooms; split <;> rfl

theorem placeSpecialRooms_next (cfg : DungeonConfig) (st : GenSt) :
    (placeSpecialRooms cfg st).next_room_id = st.next_room_id := by
  unfold placeSpecialRooms; split <;> rfl

theorem placeSpecialRooms_popExt (cfg : DungeonConfig) (st : GenSt) :
    PopExt st.rooms (placeSpecialRooms cfg st).rooms := by
  unfold placeSpecialRooms
  split
  · exact popExt_refl _
  · simp only []
    refine popExt_trans (popExt_set _ _ _ ?_ ?_ ?_ ?_ ?_ ?_)
      (popExt_set _ _ _ ?_ ?_ ?_ ?_ ?_ ?_) <;> rfl

theorem placeSpecialRooms_enc (cfg : DungeonConfig) (st : GenSt) :
    ∀ i, (roomAt (placeSpecialRooms cfg st).rooms i).encounters =
      (roomAt st.rooms i).encounters := by
  unfold placeSpecialRooms
  split
  · intro i; rfl
  · simp only []
    intro i
    refine ((enc_eq_set _ _ _ ?_ i).trans (enc_eq_set _ _ _ ?_ i)) <;> rfl

theorem placeSpecialRooms_counts {cfg : DungeonConfig} {st : GenSt}
    (hpair : st.rooms.Pairwise sepOK)
    (hsz : ∀ room ∈ st.rooms, 0 ≤ room.width ∧ 0 ≤ room.height)
    (hcor : ∀ room ∈ st.rooms, room.room_type = .corridor) :
    (2 ≤ st.rooms.length →
      typeCount (placeSpecialRooms cfg st).rooms .entrance = 1 ∧
      typeCount (placeSpecialRooms cfg st).rooms .boss = 1) ∧
    (st.rooms.length = 1 →
      typeCount (placeSpecialRooms cfg st).rooms .entrance = 0 ∧
      typeCount (placeSpecialRooms cfg st).rooms .boss = 1) ∧
    ∀ room ∈ (placeSpecialRooms cfg st).rooms,
      room.room_type = .corridor ∨ room.room_type = .entrance ∨ room.room_type = .boss := by
  unfold placeSpecialRooms
  split
  · rename_i hemp
    rw [List.isEmpty_iff] at hemp
    refine ⟨?_, ?_, fun room hmem => Or.inl (hcor room hmem)⟩
    · intro h2; rw [hemp] at h2; simp at h2
    · intro h1; rw [hemp] at h1; simp at h1
  · rename_i hemp
    have hne : st.rooms ≠ [] := by
      intro hc; rw [hc] at hemp; simp at hemp
    simp only []
    set E := argminIdx (edgeKey cfg) st.rooms with hEdef
    set entR : Room := { roomAt st.rooms E with room_type := .entrance } with hentdef
    set rooms1 := st.rooms.set E entR with hr1def
    set B := argmaxIdx (fun room => roomDistSq (roomAt rooms1 E) room) rooms1 with hBdef
    set bossR : Room := { roomAt rooms1 B with room_type := .boss } with hbossdef
    have hE : E < st.rooms.length := argminIdx_lt _ _ hne
    have hlen1 : rooms1.length = st.rooms.length := by rw [hr1def]; simp
    have hne1 : rooms1 ≠ [] := by
      intro hc
      rw [hc] at hlen1
      exact hne (List.eq_nil_of_length_eq_zero hlen1.symm)
    have hB : B < rooms1.length := argmaxIdx_lt _ _ hne1
    have hcorE : (roomAt st.rooms E).room_type = .corridor :=
      hcor _ (roomAt_mem _ _ hE)
    have hentt : entR.room_type = .entrance := rfl
    have hbosst : bossR.room_type = .boss := rfl
    refine ⟨?_, ?_, ?_⟩
    · intro h2
      have hj : ∃ j, j < st.rooms.length ∧ j ≠ E := by
        by_cases hE0 : E = 0
        · exact ⟨1, by omega, by omega⟩
        · exact ⟨0, by omega, fun hc => hE0 (by omega)⟩
      obtain ⟨j, hjlt, hjne⟩ := hj
      have hsep : sepOK (roomAt st.rooms E) (roomAt st.rooms j) := by
        rw [List.pairwise_iff_get] at hpair
        rcases Nat.lt_or_ge E j with hlt | hge
        · have := hpair ⟨E, hE⟩ ⟨j, hjlt⟩ hlt
          rw [← roomAt_eq_get _ _ hE, ← roomAt_eq_get _ _ hjlt] at this
          exact this
        · have hlt2 : j < E := by omega
          have := hpair ⟨j, hjlt⟩ ⟨E, hE⟩ hlt2
          rw [← roomAt_eq_get _ _ hE, ← roomAt_eq_get _ _ hjlt] at this
          exact sepOK_symm this
      have hcne : roomCenter (roomAt st.rooms E) ≠ roomCenter (roomAt st.rooms j) := by
        have h1 := hsz _ (roomAt_mem _ _ hE)
        have h2' := hsz _ (roomAt_mem _ _ hjlt)
        exact centers_ne_of_sepOK hsep h1.1 h1.2 h2'.1 h2'.2
      have hr1E : roomAt rooms1 E = entR := by
        rw [hr1def]; exact roomAt_set_self _ _ _ hE
      have hr1j : roomAt rooms1 j = roomAt st.rooms j := by
        rw [hr1def]; exact roomAt_set_ne _ _ _ _ hjne
      have hkeyj : 0 < roomDistSq (roomAt rooms1 E) (roomAt rooms1 j) := by
        rw [hr1E, hr1j]
        refine roomDistSq_pos ?_
        have hcent : roomCenter entR = roomCenter (roomAt st.rooms E) := rfl
        rw [hcent]
        exact hcne
      have hBne : B ≠ E := by
        intro hc
        have hle := argmaxIdx_le (fun room => roomDistSq (roomAt rooms1 E) room) rooms1 j
          (by omega)
        rw [← hBdef] at hle
        simp only [hc, hr1E] at hle
        rw [hr1E] at hkeyj
        simp only [roomDistSq_self] at hle
        omega
      have hr1B : roomAt rooms1 B = roomAt st.rooms B := by
        rw [hr1def]; exact roomAt_set_ne _ _ _ _ hBne
      have hcorB : (roomAt rooms1 B).room_type = .corridor := by
        rw [hr1B]
        exact hcor _ (roomAt_mem _ _ (by omega))
      have e3e : st.rooms.countP (fun room => decide (room.room_type = RoomType.entrance)) = 0 :=
        countP_eq_zero_of_all (fun room hmem => by rw [hcor room hmem]; rfl)
      have e3b : st.rooms.countP (fun room => decide (room.room_type = RoomType.boss)) = 0 :=
        countP_eq_zero_of_all (fun room hmem => by rw [hcor room hmem]; rfl)
      have e2e : rooms1.countP (fun room => decide (room.room_type = RoomType.entrance)) =
          st.rooms.countP (fun room => decide (room.room_type = RoomType.entrance)) + 1 := by
        rw [hr1def]
        exact countP_set_add_one _ default _ _ _ hE (by rw [hentt]; rfl)
          (by show decide ((roomAt st.rooms E).room_type = RoomType.entrance) = false
              rw [hcorE]; rfl)
      have e2b : rooms1.countP (fun room => decide (room.room_type = RoomType.boss)) =
          st.rooms.countP (fun room => decide (room.room_type = RoomType.boss)) := by
        rw [hr1def]
        exact countP_set_eq _ default _ _ _
          (by show decide (entR.room_type = RoomType.boss) =
                decide ((roomAt st.rooms E).room_type = RoomType.boss)
              rw [hentt, hcorE]
              rfl)

      have e1e : (rooms1.set B bossR).countP
          (fun room => decide (room.room_type = RoomType.entrance)) =
          rooms1.countP (fun room => decide (room.room_type = RoomType.entrance)) :=
        countP_set_eq _ default _ _ _
          (by show decide (bossR.room_type = RoomType.entrance) =
                decide ((roomAt rooms1 B).room_type = RoomType.entrance)
              rw [hbosst, hcorB]
              rfl)
      have e1b : (rooms1.set B bossR).countP
          (fun room => decide (room.room_type = RoomType.boss)) =
          rooms1.countP (fun room => decide (room.room_type = RoomType.boss)) + 1 := by
        refine countP_set_add_one _ default _ _ _ (by omega) (by rw [hbosst]; rfl) ?_
        show decide ((roomAt rooms1 B).room_type = RoomType.boss) = false
        rw [hcorB]; rfl
      constructor
      · show (rooms1.set B bossR).countP
          (fun room => decide (room.room_type = RoomType.entrance)) = 1
        omega
      · show (rooms1.set B bossR).countP
          (fun room => decide (room.room_type = RoomType.boss)) = 1
        omega
    · intro h1
      have hE0 : E = 0 := by omega
      have hB0 : B = 0 := by omega
      obtain ⟨a, ha⟩ := List.length_eq_one.mp h1
      have hr1 : rooms1 = [entR] := by rw [hr1def, hE0, ha]; rfl
      have hset : rooms1.set B bossR = [bossR] := by rw [hr1, hB0]; rfl
      rw [hset]
      constructor
      · show List.countP (fun room => decide (room.room_type = RoomType.entrance)) [bossR] = 0
        simp [List.countP_cons, hbosst]
      · show List.countP (fun room => decide (room.room_type = RoomType.boss)) [bossR] = 1
        simp [List.countP_cons, hbosst]
    · intro room hmem
      rcases List.mem_or_eq_of_mem_set hmem with hm | hm
      · rw [hr1def] at hm
        rcases List.mem_or_eq_of_mem_set hm with hm2 | hm2
        · exact Or.inl (hcor room hm2)
        · subst hm2; exact Or.inr (Or.inl rfl)
      · subst hm; exact Or.inr (Or.inr rfl)

/-! ## The Content Populator -/

theorem encLoop_bounds {cfg : DungeonConfig} {room : Room} :
    ∀ {k : Nat} {r : Rand} {l : List Encounter} {r' : Rand},
      encLoop cfg room k r = .ok (l, r') →
      ∀ e ∈ l, ∀ px py, e.position = some (px, py) →
        room.x + 1 ≤ px ∧ px ≤ room.x + room.width - 2 ∧
        room.y + 1 ≤ py ∧ py ≤ room.y + room.height - 2 := by
  intro k
  induction k with
  | zero =>
    intro r l r' h e he
    obtain ⟨h1, -⟩ : [] = l ∧ r = r' := by simpa [encLoop] using h
    rw [← h1] at he
    simp at he
  | succ k ih =>
    intro r l r' h e he px py hpos
    unfold encLoop at h
    split at h
    · exact absurd h (by simp)
    rename_i mi r1 heq1
    split at h
    · exact absurd h (by simp)
    rename_i vx r2 heq2
    split at h
    · exact absurd h (by simp)
    rename_i vy r3 heq3
    split at h
    · exact absurd h (by simp)
    rename_i rest r4 heq4
    obtain ⟨hl, -⟩ : _ = l ∧ r4 = r' := by simpa using h
    rw [← hl] at he
    rcases List.mem_cons.mp he with he | he
    · subst he
      simp only [Option.some.injEq, Prod.mk.injEq] at hpos
      obtain ⟨hx, hy⟩ := hpos
      obtain ⟨hx1, hx2⟩ := pyRandint_ok_bounds heq2
      obtain ⟨hy1, hy2⟩ := pyRandint_ok_bounds heq3
      omega
    · exact ih heq4 e he px py hpos

theorem generateEncounters_bounds {cfg : DungeonConfig} {room : Room} {r : Rand}
    {l : List Encounter} {r' : Rand} (h : generateEncounters cfg room r = .ok (l, r')) :
    ∀ e ∈ l, ∀ px py, e.position = some (px, py) →
      room.x + 1 ≤ px ∧ px ≤ room.x + room.width - 2 ∧
      room.y + 1 ≤ py ∧ py ≤ room.y + room.height - 2 := by
  unfold generateEncounters at h
  split at h
  · obtain ⟨h1, -⟩ : [] = l ∧ r = r' := by simpa using h
    rw [← h1]
    simp
  · split at h
    · exact absurd h (by simp)
    · rename_i num r1 heq
      exact encLoop_bounds h

theorem assignRole_spec {cfg : DungeonConfig} {room room' : Room} {roll : ℚ} {r r' : Rand}
    (h : assignRole cfg room roll r = .ok (room', r')) :
    room'.id = room.id ∧ room'.x = room.x ∧ room'.y = room.y ∧
    room'.width = room.width ∧ room'.height = room.height ∧
    room'.connections = room.connections ∧
    (room'.room_type = .combat ∨ room'.room_type = .puzzle ∨
     room'.room_type = .treasure ∨ room'.room_type = .safe) ∧
    (room'.encounters = room.encounters ∨
      ∀ e ∈ room'.encounters, ∀ px py, e.position = some (px, py) →
        room.x + 1 ≤ px ∧ px ≤ room.x + room.width - 2 ∧
        room.y + 1 ≤ py ∧ py ≤ room.y + room.height - 2) := by
  unfold assignRole at h
  split at h
  · split at h
    · exact absurd h (by simp)
    · rename_i encs r1 heq
      obtain ⟨h1, -⟩ : _ = room' ∧ r1 = r' := by simpa using h
      subst h1
      exact ⟨rfl, rfl, rfl, rfl, rfl, rfl, Or.inl rfl,
        Or.inr (generateEncounters_bounds heq)⟩
  · split at h
    · split at h
      · exact absurd h (by simp)
      · rename_i pz r1 heq
        obtain ⟨h1, -⟩ : _ = room' ∧ r1 = r' := by simpa using h
        subst h1
        exact ⟨rfl, rfl, rfl, rfl, rfl, rfl, Or.inr (Or.inl rfl), Or.inl rfl⟩
    · split at h
      · split at h
        · exact absurd h (by simp)
        · rename_i lt r1 heq
          obtain ⟨h1, -⟩ : _ = room' ∧ r1 = r' := by simpa using h
          subst h1
          exact ⟨rfl, rfl, rfl, rfl, rfl, rfl, Or.inr (Or.inr (Or.inl rfl)), Or.inl rfl⟩
      · obtain ⟨h1, -⟩ : _ = room' ∧ r = r' := by simpa using h
        subst h1
        exact ⟨rfl, rfl, rfl, rfl, rfl, rfl, Or.inr (Or.inr (Or.inr rfl)), Or.inl rfl⟩

theorem default_room_encounters : (default : Room).encounters = [] := rfl

theorem populateRoom_spec {cfg : DungeonConfig} {st : GenSt} {i : Nat} {r : Rand}
    {st' : GenSt} {r' : Rand} (h : populateRoom cfg st i r = .ok (st', r')) :
    PopExt st.rooms st'.rooms ∧ st'.next_room_id = st.next_room_id ∧ st'.grid = st.grid ∧
    typeCount st'.rooms .entrance = typeCount st.rooms .entrance ∧
    typeCount st'.rooms .boss = typeCount st.rooms .boss ∧
    (EncOK st.rooms → EncOK st'.rooms) := by
  unfold populateRoom at h
  simp only [] at h
  split at h
  · obtain ⟨h1, -⟩ : st = st' ∧ r = r' := by simpa using h
    subst h1
    exact ⟨popExt_refl _, rfl, rfl, rfl, rfl, fun he => he⟩
  · rename_i hguard
    rw [not_or] at hguard
    obtain ⟨hge, hgb⟩ := hguard
    split at h
    · exact absurd h (by simp)
    rename_i room0 r0 heqrole
    obtain ⟨hid, hx, hy, hw, hh, hconn, htype, henc⟩ := assignRole_spec heqrole
    have hfinish : ∀ (room2 : Room), room2.id = room0.id → room2.x = room0.x →
        room2.y = room0.y → room2.width = room0.width → room2.height = room0.height →
        room2.connections = room0.connections → room2.room_type = room0.room_type →
        room2.encounters = room0.encounters →
        ∀ (rr : Rand), (.ok ({ st with rooms := st.rooms.set i room2 }, rr) :
          Except String (GenSt × Rand)) = .ok (st', r') →
        PopExt st.rooms st'.rooms ∧ st'.next_room_id = st.next_room_id ∧
        st'.grid = st.grid ∧
        typeCount st'.rooms .entrance = typeCount st.rooms .entrance ∧
        typeCount st'.rooms .boss = typeCount st.rooms .boss ∧
        (EncOK st.rooms → EncOK st'.rooms) := by
      intro room2 h2id h2x h2y h2w h2h h2conn h2type h2enc rr hok
      obtain ⟨h1, -⟩ : _ = st' ∧ rr = r' := by simpa using hok
      subst h1
      have htype2 : room2.room_type = .combat ∨ room2.room_type = .puzzle ∨
          room2.room_type = .treasure ∨ room2.room_type = .safe := by
        rw [h2type]; exact htype
      have hnotent : decide (room2.room_type = RoomType.entrance) = false := by
        rcases htype2 with ht | ht | ht | ht <;> rw [ht] <;> rfl
      have hnotboss : decide (room2.room_type = RoomType.boss) = false := by
        rcases htype2 with ht | ht | ht | ht <;> rw [ht] <;> rfl
      have holdent : decide ((roomAt st.rooms i).room_type = RoomType.entrance) = false :=
        decide_eq_false hge
      have holdboss : decide ((roomAt st.rooms i).room_type = RoomType.boss) = false :=
        decide_eq_false hgb
      refine ⟨popExt_set _ _ _ (by rw [h2id, hid]) (by rw [h2x, hx]) (by rw [h2y, hy])
          (by rw [h2w, hw]) (by rw [h2h, hh]) (by rw [h2conn, hconn]), rfl, rfl, ?_, ?_, ?_⟩
      · refine countP_set_eq _ default _ _ _ ?_
        show decide (room2.room_type = RoomType.entrance) =
          decide ((roomAt st.rooms i).room_type = RoomType.entrance)
        rw [hnotent, holdent]
      · refine countP_set_eq _ default _ _ _ ?_
        show decide (room2.room_type = RoomType.boss) =
          decide ((roomAt st.rooms i).room_type = RoomType.boss)
        rw [hnotboss, holdboss]
      · intro hok0
        intro room2' hmem e he px py hpos
        rcases List.mem_or_eq_of_mem_set hmem with hm | hm
        · exact hok0 room2' hm e he px py hpos
        · subst hm
          rw [h2enc] at he
          rcases henc with henc | henc
          · rw [henc] at he
            by_cases hlt : i < st.rooms.length
            · have := hok0 (roomAt st.rooms i) (roomAt_mem _ _ hlt) e he px py hpos
              omega
            · rw [roomAt_of_le _ _ (by omega), default_room_encounters] at he
              simp at he
          · have := henc e he px py hpos
            omega
    split at h
    · rename_i hntreas
      split at h
      · split at h
        · exact absurd h (by simp)
        · rename_i lt2 r2 heq2
          exact hfinish { room0 with loot := lt2 } rfl rfl rfl rfl rfl rfl rfl rfl _ h
      · exact hfinish _ rfl rfl rfl rfl rfl rfl rfl rfl _ h
    · exact hfinish _ rfl rfl rfl rfl rfl rfl rfl rfl _ h

theorem populateLoop_spec {cfg : DungeonConfig} :
    ∀ {L : List Nat} {st : GenSt} {r : Rand} {st' : GenSt} {r' : Rand},
      populateLoop cfg L st r = .ok (st', r') →
      PopExt st.rooms st'.rooms ∧ st'.next_room_id = st.next_room_id ∧
      st'.grid = st.grid ∧
      typeCount st'.rooms .entrance = typeCount st.rooms .entrance ∧
      typeCount st'.rooms .boss = typeCount st.rooms .boss ∧
      (EncOK st.rooms → EncOK st'.rooms) := by
  intro L
  induction L with
  | nil =>
    intro st r st' r' h
    obtain ⟨h1, -⟩ : st = st' ∧ r = r' := by simpa [populateLoop] using h
    subst h1
    exact ⟨popExt_refl _, rfl, rfl, rfl, rfl, fun he => he⟩
  | cons i L ih =>
    intro st r st' r' h
    unfold populateLoop at h
    split at h
    · exact absurd h (by simp)
    · rename_i st1 r1 heq
      obtain ⟨p1, n1, g1, c1e, c1b, e1⟩ := populateRoom_spec heq
      obtain ⟨p2, n2, g2, c2e, c2b, e2⟩ := ih h
      exact ⟨popExt_trans p1 p2, n2.trans n1, g2.trans g1, c2e.trans c1e,
        c2b.trans c1b, fun he => e2 (e1 he)⟩

theorem generateBossEncounter_no_position (cfg : DungeonConfig) :
    ∀ e ∈ generateBossEncounter cfg, e.position = none := by
  unfold generateBossEncounter
  split
  · intro e he
    rw [List.mem_singleton] at he
    subst he
    rfl
  · simp

theorem populateBossLoop_spec {cfg : DungeonConfig} :
    ∀ {L : List Nat} {st : GenSt} {r : Rand} {st' : GenSt} {r' : Rand},
      populateBossLoop cfg L st r = .ok (st', r') →
      PopExt st.rooms st'.rooms ∧ st'.next_room_id = st.next_room_id ∧
      st'.grid = st.grid ∧
      (∀ i, (roomAt st'.rooms i).room_type = (roomAt st.rooms i).room_type) ∧
      (∀ i ∈ L, i < st.rooms.length →
        (roomAt st'.rooms i).encounters = generateBossEncounter cfg) ∧
      (∀ i, (roomAt st'.rooms i).encounters = (roomAt st.rooms i).encounters ∨
        (roomAt st'.rooms i).encounters = generateBossEncounter cfg) ∧
      (∀ t : RoomType, typeCount st'.rooms t = typeCount st.rooms t) := by
  intro L
  induction L with
  | nil =>
    intro st r st' r' h
    obtain ⟨h1, -⟩ : st = st' ∧ r = r' := by simpa [populateBossLoop] using h
    subst h1
    exact ⟨popExt_refl _, rfl, rfl, fun _ => rfl, by simp, fun _ => Or.inl rfl, fun _ => rfl⟩
  | cons j L ih =>
    intro st r st' r' h
    unfold populateBossLoop at h
    split at h
    · exact absurd h (by simp)
    · rename_i lt r1 heq
      simp only [] at h
      obtain ⟨p2, n2, g2, t2, b2, e2, tc2⟩ := ih h
      have hset := popExt_set st.rooms j
        { roomAt st.rooms j with encounters := generateBossEncounter cfg, loot := lt }
        rfl rfl rfl rfl rfl rfl
      have htset := type_eq_set st.rooms j
        { roomAt st.rooms j with encounters := generateBossEncounter cfg, loot := lt } rfl
      refine ⟨popExt_trans hset p2, n2, g2, fun i => (t2 i).trans (htset i), ?_, ?_, ?_⟩
      · intro i hi hilt
        rcases List.mem_cons.mp hi with hi | hi
        · subst hi
          rcases e2 i with he | he
          · rw [he, roomAt_set_self _ _ _ hilt]
          · exact he
        · exact b2 i hi (by simpa using hilt)
      · intro i
        rcases e2 i with he | he
        · rw [he]
          by_cases hij : i = j
          · subst hij
            by_cases hlt2 : i < st.rooms.length
            · rw [roomAt_set_self _ _ _ hlt2]
              exact Or.inr rfl
            · rw [List.set_eq_of_length_le (by omega)]
              exact Or.inl rfl
          · rw [roomAt_set_ne _ _ _ _ hij]
            exact Or.inl rfl
        · exact Or.inr he
      · intro t
        refine (tc2 t).trans ?_
        exact countP_set_eq _ default _ _ _ rfl

theorem populateRooms_spec {cfg : DungeonConfig} {st : GenSt} {r : Rand}
    {st' : GenSt} {r' : Rand} (h : populateRooms cfg st r = .ok (st', r')) :
    PopExt st.rooms st'.rooms ∧ st'.next_room_id = st.next_room_id ∧
    st'.grid = st.grid ∧
    typeCount st'.rooms .entrance = typeCount st.rooms .entrance ∧
    typeCount st'.rooms .boss = typeCount st.rooms .boss ∧
    (EncOK st.rooms → EncOK st'.rooms) ∧
    (∀ room ∈ st'.rooms, room.room_type = .boss →
      room.encounters = generateBossEncounter cfg) := by
  unfold populateRooms at h
  split at h
  · exact absurd h (by simp)
  · rename_i st1 r1 heq
    obtain ⟨p1, n1, g1, c1e, c1b, e1⟩ := populateLoop_spec heq
    obtain ⟨p2, n2, g2, t2, b2, enc2, tc2⟩ := populateBossLoop_spec h
    refine ⟨popExt_trans p1 p2, n2.trans n1, g2.trans g1,
      (tc2 _).trans c1e, (tc2 _).trans c1b, ?_, ?_⟩
    · intro he
      have he1 := e1 he
      intro room hmem e hemem px py hpos
      obtain ⟨i, hi, rfl⟩ := mem_iff_roomAt.mp hmem
      have hlen : st'.rooms.length = st1.rooms.length := p2.1
      obtain ⟨-, hx, hy, hw, hh, -⟩ := p2.2 i
      rcases enc2 i with hcase | hcase
      · rw [hcase] at hemem
        have := he1 (roomAt st1.rooms i) (roomAt_mem _ _ (by omega)) e hemem px py hpos
        omega
      · rw [hcase] at hemem
        have := generateBossEncounter_no_position cfg e hemem
        rw [this] at hpos
        exact absurd hpos (by simp)
    · intro room hmem hboss
      obtain ⟨i, hi, rfl⟩ := mem_iff_roomAt.mp hmem
      have hlen : st'.rooms.length = st1.rooms.length := p2.1
      have htype1 : (roomAt st1.rooms i).room_type = .boss := by
        rw [← t2 i]; exact hboss
      refine b2 i ?_ (by omega)
      rw [List.mem_filter]
      exact ⟨List.mem_range.mpr (by omega), by rw [htype1]; rfl⟩

/-! ## The secret-room pass -/

theorem trySecretPositions_none {cfg : DungeonConfig} {st : GenSt} {width height : Int} :
    ∀ {poss : List (Int × Int)},
      (∀ p ∈ poss, checkRoomOverlap st.rooms p.1 p.2 width height = true) →
      trySecretPositions cfg st width height poss = none := by
  intro poss
  induction poss with
  | nil => intro _; rfl
  | cons p ps ih =>
    intro hall
    rcases p with ⟨x, y⟩
    simp only [trySecretPositions]
    split
    · rename_i hcond
      have hover := hall (x, y) (by simp)
      rw [hcond.2.2.2.2] at hover
      exact absurd hover (by simp)
    · exact ih (fun q hq => hall q (by simp [hq]))

theorem trySecretPositions_some {cfg : DungeonConfig} {st : GenSt} {width height : Int} :
    ∀ {poss : List (Int × Int)} {st1 : GenSt},
      trySecretPositions cfg st width height poss = some st1 →
      ∃ x y, (x, y) ∈ poss ∧
        checkRoomOverlap st.rooms x y width height = false ∧
        st1.rooms = st.rooms ++ [mkSecretRoom st.next_room_id x y width height] ∧
        st1.grid = carveRoom st.grid (mkSecretRoom st.next_room_id x y width height) := by
  intro poss
  induction poss with
  | nil => intro st1 h; exact absurd h (by simp [trySecretPositions])
  | cons p ps ih =>
    intro st1 h
    rcases p with ⟨x, y⟩
    simp only [trySecretPositions] at h
    split at h
    · rename_i hcond
      obtain ⟨h1⟩ := h
      refine ⟨x, y, by simp, hcond.2.2.2.2, ?_, ?_⟩
      · rfl
      · rfl
    · obtain ⟨x', y', hmem, hrest⟩ := ih h
      exact ⟨x', y', by simp [hmem], hrest⟩

theorem secretAttempts_cases {cfg : DungeonConfig} :
    ∀ {k : Nat} {st : GenSt} {r : Rand} {st' : GenSt} {r' : Rand},
      secretAttempts cfg k st r = .ok (st', r') →
      (st'.rooms = st.rooms ∧ st'.grid = st.grid) ∨
      ∃ sec : Room, st'.rooms = st.rooms ++ [sec] ∧
        (∃ sec0 : Room, st'.grid = carveRoom st.grid sec0) ∧
        sec.room_type = .secret ∧ sec.encounters = [] ∧ sec.connections = [] ∧
        sec.id = st.next_room_id ∧ 3 ≤ sec.width ∧ sec.width ≤ 6 ∧
        3 ≤ sec.height ∧ sec.height ≤ 6 ∧
        checkRoomOverlap st.rooms sec.x sec.y sec.width sec.height = false := by
  intro k
  induction k with
  | zero =>
    intro st r st' r' h
    obtain ⟨h1, -⟩ : st = st' ∧ r = r' := by simpa [secretAttempts] using h
    subst h1
    exact Or.inl ⟨rfl, rfl⟩
  | succ k ih =>
    intro st r st' r' h
    unfold secretAttempts at h
    split at h
    · exact absurd h (by simp)
    rename_i bi r1 heq1
    split at h
    · exact absurd h (by simp)
    rename_i width r2 heq2
    split at h
    · exact absurd h (by simp)
    rename_i height r3 heq3
    simp only [] at h
    rcases htry : trySecretPositions cfg st width height
        [((roomAt st.rooms bi).x - width - 1, (roomAt st.rooms bi).y),
         ((roomAt st.rooms bi).x + (roomAt st.rooms bi).width + 1, (roomAt st.rooms bi).y),
         ((roomAt st.rooms bi).x, (roomAt st.rooms bi).y - height - 1),
         ((roomAt st.rooms bi).x, (roomAt st.rooms bi).y + (roomAt st.rooms bi).height + 1)]
      with _ | st1
    · rw [htry] at h
      exact ih h
    · rw [htry] at h
      simp only [] at h
      split at h
      · exact absurd h (by simp)
      · rename_i lt r4 heq4
        obtain ⟨hw1, hw2⟩ := pyRandint_ok_bounds heq2
        obtain ⟨hh1, hh2⟩ := pyRandint_ok_bounds heq3
        obtain ⟨x, y, hmem, hcheck, hrooms1, hgrid1⟩ := trySecretPositions_some htry
        obtain ⟨h1, -⟩ : _ = st' ∧ r4 = r' := by simpa using h
        subst h1
        right
        have hidx : st1.rooms.length - 1 = st.rooms.length := by
          rw [hrooms1]; simp
        have hroomAt : roomAt st1.rooms (st1.rooms.length - 1) =
            mkSecretRoom st.next_room_id x y width height := by
          rw [hidx, hrooms1]
          exact roomAt_append_right _ _
        refine ⟨{ mkSecretRoom st.next_room_id x y width height with loot := lt },
          ?_, ?_, rfl, rfl, rfl, rfl, hw1, hw2, hh1, hh2, hcheck⟩
        · show (st1.rooms.set (st1.rooms.length - 1) _) = _
          rw [hroomAt, hidx, hrooms1, set_append_last]
        · exact ⟨_, hgrid1⟩

theorem secretAttempts_no_room {cfg : DungeonConfig} :
    ∀ {k : Nat} {st : GenSt} {r : Rand} {st' : GenSt} {r' : Rand},
      (∀ room ∈ st.rooms, 0 ≤ room.width ∧ 0 ≤ room.height) →
      secretAttempts cfg k st r = .ok (st', r') →
      st'.rooms = st.rooms ∧ st'.grid = st.grid := by
  intro k
  induction k with
  | zero =>
    intro st r st' r' hsz h
    obtain ⟨h1, -⟩ : st = st' ∧ r = r' := by simpa [secretAttempts] using h
    subst h1
    exact ⟨rfl, rfl⟩
  | succ k ih =>
    intro st r st' r' hsz h
    unfold secretAttempts at h
    split at h
    · exact absurd h (by simp)
    rename_i bi r1 heq1
    split at h
    · exact absurd h (by simp)
    rename_i width r2 heq2
    split at h
    · exact absurd h (by simp)
    rename_i height r3 heq3
    have hbi : bi < st.rooms.length := by
      have := pyChoiceIdx_ok_lt heq1
      exact this
    have hbmem : roomAt st.rooms bi ∈ st.rooms := roomAt_mem _ _ hbi
    obtain ⟨hbw, hbh⟩ := hsz _ hbmem
    obtain ⟨hw1, hw2⟩ := pyRandint_ok_bounds heq2
    obtain ⟨hh1, hh2⟩ := pyRandint_ok_bounds heq3
    simp only [] at h
    have hnone : trySecretPositions cfg st width height
        [((roomAt st.rooms bi).x - width - 1, (roomAt st.rooms bi).y),
         ((roomAt st.rooms bi).x + (roomAt st.rooms bi).width + 1, (roomAt st.rooms bi).y),
         ((roomAt st.rooms bi).x, (roomAt st.rooms bi).y - height - 1),
         ((roomAt st.rooms bi).x, (roomAt st.rooms bi).y + (roomAt st.rooms bi).height + 1)]
        = none := by
      refine trySecretPositions_none ?_
      intro p hp
      simp only [List.mem_cons, List.not_mem_nil, or_false] at hp
      rcases hp with hp | hp | hp | hp <;> subst hp <;>
        exact check_true_of_overlap hbmem (by omega) (by omega) (by omega) (by omega)
    rw [hnone] at h
    exact ih hsz h

theorem addSecretRooms_cases {cfg : DungeonConfig} {st : GenSt} {r : Rand}
    {st' : GenSt} {r' : Rand} (h : addSecretRooms cfg st r = .ok (st', r')) :
    (st'.rooms = st.rooms ∧ st'.grid = st.grid) ∨
    ∃ sec : Room, st'.rooms = st.rooms ++ [sec] ∧
      (∃ sec0 : Room, st'.grid = carveRoom st.grid sec0) ∧
      sec.room_type = .secret ∧ sec.encounters = [] ∧ sec.connections = [] ∧
      sec.id = st.next_room_id ∧ 3 ≤ sec.width ∧ sec.width ≤ 6 ∧
      3 ≤ sec.height ∧ sec.height ≤ 6 ∧
      checkRoomOverlap st.rooms sec.x sec.y sec.width sec.height = false := by
  unfold addSecretRooms at h
  simp only [] at h
  split at h
  · obtain ⟨h1, -⟩ : st = st' ∧ _ = r' := by simpa using h
    subst h1
    exact Or.inl ⟨rfl, rfl⟩
  · exact secretAttempts_cases h

theorem addSecretRooms_no_room {cfg : DungeonConfig} {st : GenSt} {r : Rand}
    {st' : GenSt} {r' : Rand}
    (hsz : ∀ room ∈ st.rooms, 0 ≤ room.width ∧ 0 ≤ room.height)
    (h : addSecretRooms cfg st r = .ok (st', r')) :
    st'.rooms = st.rooms ∧ st'.grid = st.grid := by
  unfold addSecretRooms at h
  simp only [] at h
  split at h
  · obtain ⟨h1, -⟩ : st = st' ∧ _ = r' := by simpa using h
    subst h1
    exact ⟨rfl, rfl⟩
  · exact secretAttempts_no_room hsz h

/-! ## Grid contents -/

theorem gridVals_tileSet {P : TileType → Prop} {g : Grid} {y x : Int} {t : TileType}
    (hg : GridVals P g) (ht : P t) : GridVals P (tileSet g y x t) := by
  unfold tileSet
  split
  · intro row hrow c hc
    rcases List.mem_or_eq_of_mem_set hrow with hr | hr
    · exact hg row hr c hc
    · subst hr
      rcases List.mem_or_eq_of_mem_set hc with hc2 | hc2
      · by_cases hlen : y.toNat < g.length
        · refine hg _ ?_ c hc2
          rw [List.getD_eq_getElem?_getD, List.getElem?_eq_getElem hlen]
          exact List.getElem_mem hlen
        · rw [List.getD_eq_getElem?_getD, List.getElem?_eq_none (by omega)] at hc2
          simp at hc2
      · subst hc2; exact ht
  · exact hg

theorem gridVals_foldl {α : Type} {P : TileType → Prop} {f : Grid → α → Grid}
    (hpres : ∀ g a, GridVals P g → GridVals P (f g a)) :
    ∀ (l : List α) (g : Grid), GridVals P g → GridVals P (l.foldl f g) := by
  intro l
  induction l with
  | nil => intro g hg; exact hg
  | cons a l ih => intro g hg; exact ih _ (hpres g a hg)

theorem gridVals_carveRoom {P : TileType → Prop} {g : Grid} {room : Room}
    (hf : P .floor) (hg : GridVals P g) : GridVals P (carveRoom g room) := by
  unfold carveRoom
  refine gridVals_foldl (fun g y hgy => ?_) _ _ hg
  exact gridVals_foldl (fun g x hgx => gridVals_tileSet hgx hf) _ _ hgy

theorem gridVals_carveH {P : TileType → Prop} {cfg : DungeonConfig} {g : Grid}
    {x1 x2 y : Int} (hf : P .floor) (hg : GridVals P g) :
    GridVals P (carveHCorridor cfg g x1 x2 y) := by
  unfold carveHCorridor
  refine gridVals_foldl (fun g x hgx => ?_) _ _ hg
  split
  · exact gridVals_tileSet hgx hf
  · exact hgx

theorem gridVals_carveV {P : TileType → Prop} {cfg : DungeonConfig} {g : Grid}
    {y1 y2 x : Int} (hf : P .floor) (hg : GridVals P g) :
    GridVals P (carveVCorridor cfg g y1 y2 x) := by
  unfold carveVCorridor
  refine gridVals_foldl (fun g y hgy => ?_) _ _ hg
  split
  · exact gridVals_tileSet hgy hf
  · exact hgy

theorem gridVals_carveCorridor {P : TileType → Prop} {cfg : DungeonConfig} {g : Grid}
    {r1 r2 : Room} {rand : Rand} (hf : P .floor) (hg : GridVals P g) :
    GridVals P (carveCorridor cfg g r1 r2 rand).1 := by
  unfold carveCorridor
  simp only []
  split
  · exact gridVals_carveV hf (gridVals_carveH hf hg)
  · exact gridVals_carveH hf (gridVals_carveV hf hg)

theorem gridVals_init {P : TileType → Prop} (cfg : DungeonConfig) (hw : P .wall) :
    GridVals P (initSt cfg).grid := by
  intro row hrow c hc
  rw [List.eq_of_mem_replicate hrow] at hc
  rw [List.eq_of_mem_replicate hc]
  exact hw

theorem gridVals_placeTrial {P : TileType → Prop} {cfg : DungeonConfig} {st st' : GenSt}
    {r r' : Rand} (hf : P .floor) (h : placeTrial cfg st r = .ok (st', r'))
    (hg : GridVals P st.grid) : GridVals P st'.grid := by
  unfold placeTrial at h
  split at h
  · exact absurd h (by simp)
  rename_i w r1 heq1
  split at h
  · exact absurd h (by simp)
  rename_i hh r2 heq2
  split at h
  · exact absurd h (by simp)
  rename_i x r3 heq3
  split at h
  · exact absurd h (by simp)
  rename_i y r4 heq4
  split at h
  · obtain ⟨h1, -⟩ : st = st' ∧ r4 = r' := by simpa using h
    subst h1
    exact hg
  · obtain ⟨h1, -⟩ : _ = st' ∧ r4 = r' := by simpa using h
    subst h1
    exact gridVals_carveRoom hf hg

theorem gridVals_placeLoop {P : TileType → Prop} {cfg : DungeonConfig} {num_rooms : Int}
    (hf : P .floor) :
    ∀ {fuel : Nat} {st st' : GenSt} {r r' : Rand},
      placeLoop cfg num_rooms fuel st r = .ok (st', r') →
      GridVals P st.grid → GridVals P st'.grid := by
  intro fuel
  induction fuel with
  | zero =>
    intro st st' r r' h hg
    obtain ⟨h1, -⟩ : st = st' ∧ r = r' := by simpa [placeLoop] using h
    subst h1
    exact hg
  | succ fuel ih =>
    intro st st' r r' h hg
    unfold placeLoop at h
    split at h
    · obtain ⟨h1, -⟩ : st = st' ∧ r = r' := by simpa using h
      subst h1
      exact hg
    · split at h
      · exact absurd h (by simp)
      · rename_i st1 r1 heq
        exact ih h (gridVals_placeTrial hf heq hg)

theorem gridVals_mstLoop {P : TileType → Prop} {cfg : DungeonConfig} (hf : P .floor) :
    ∀ {fuel : Nat} {connected unconnected : List Nat} {st : GenSt} {r : Rand},
      GridVals P st.grid →
      GridVals P (mstLoop cfg fuel connected unconnected st r).1.grid := by
  intro fuel
  induction fuel with
  | zero =>
    intro connected unconnected st r hg
    simpa [mstLoop] using hg
  | succ fuel ih =>
    intro connected unconnected st r hg
    rcases unconnected with _ | ⟨u0, us⟩
    · simpa [mstLoop] using hg
    · simp only [mstLoop]
      exact ih (gridVals_carveCorridor hf hg)

theorem gridVals_extraLoop {P : TileType → Prop} {cfg : DungeonConfig} (hf : P .floor) :
    ∀ {k : Nat} {st : GenSt} {r : Rand} {st' : GenSt} {r' : Rand},
      extraLoop cfg k st r = .ok (st', r') →
      GridVals P st.grid → GridVals P st'.grid := by
  intro k
  induction k with
  | zero =>
    intro st r st' r' h hg
    obtain ⟨h1, -⟩ : st = st' ∧ r = r' := by simpa [extraLoop] using h
    subst h1
    exact hg
  | succ k ih =>
    intro st r st' r' h hg
    unfold extraLoop at h
    split at h
    · exact absurd h (by simp)
    rename_i i1 r1 heq1
    split at h
    · exact absurd h (by simp)
    rename_i i2 r2 heq2
    simp only [] at h
    split at h
    · exact ih h (gridVals_carveCorridor hf hg)
    · exact ih h hg

theorem gridVals_connectRooms {P : TileType → Prop} {cfg : DungeonConfig}
    {st st' : GenSt} {r r' : Rand} (hf : P .floor)
    (h : connectRooms cfg st r = .ok (st', r')) (hg : GridVals P st.grid) :
    GridVals P st'.grid := by
  unfold connectRooms at h
  split at h
  · obtain ⟨h1, -⟩ : st = st' ∧ r = r' := by simpa using h
    subst h1
    exact hg
  · simp only [] at h
    split at h
    · exact absurd h (by simp)
    · rename_i extra r2 heq
      exact gridVals_extraLoop hf h (gridVals_mstLoop hf hg)

/-! ## Counting tiles -/

theorem countP_set_le {α : Type} (p : α → Bool) :
    ∀ (l : List α) (i : Nat) (a : α),
      (l.set i a).countP p ≤ l.countP p + (if p a = true then 1 else 0) := by
  intro l
  induction l with
  | nil => intro i a; simp
  | cons x xs ih =>
    intro i a
    match i with
    | 0 =>
      simp only [List.set_cons_zero, List.countP_cons]
      split <;> omega
    | i + 1 =>
      simp only [List.set_cons_succ, List.countP_cons]
      have := ih i a
      omega

theorem sum_map_set_le {α : Type} (f : α → Nat) (dflt : α) :
    ∀ (l : List α) (i : Nat) (b : α) (k : Nat), f b ≤ f (l.getD i dflt) + k →
      ((l.set i b).map f).sum ≤ (l.map f).sum + k := by
  intro l
  induction l with
  | nil => intro i b k _; simp
  | cons x xs ih =>
    intro i b k hb
    match i with
    | 0 =>
      simp only [List.getD_cons_zero] at hb
      simp only [List.set_cons_zero, List.map_cons, List.sum_cons]
      omega
    | i + 1 =>
      simp only [List.getD_cons_succ] at hb
      simp only [List.set_cons_succ, List.map_cons, List.sum_cons]
      have := ih i b k hb
      omega

theorem countTile_tileSet_le (g : Grid) (y x : Int) (t : TileType) :
    countTile (tileSet g y x t) t ≤ countTile g t + 1 := by
  unfold tileSet
  split
  · unfold countTile
    refine sum_map_set_le _ [] _ _ _ _ ?_
    have := countP_set_le (fun c => decide (c = t)) (g.getD y.toNat []) x.toNat t
    simpa using this
  · exact Nat.le_succ_of_le (le_refl _)

theorem countTile_tileSet_ne (g : Grid) (y x : Int) (t t' : TileType) (hne : t ≠ t') :
    countTile (tileSet g y x t) t' ≤ countTile g t' := by
  unfold tileSet
  split
  · unfold countTile
    have hb := countP_set_le (fun c => decide (c = t')) (g.getD y.toNat []) x.toNat t
    rw [if_neg (by simp [hne])] at hb
    have := sum_map_set_le (fun row => row.countP (fun c => decide (c = t'))) []
      g y.toNat ((g.getD y.toNat []).set x.toNat t) 0 (by simpa using hb)
    simpa using this
  · exact le_refl _

theorem countTile_traps_foldl (l : List (Int × Int)) :
    ∀ g : Grid, countTile (l.foldl (fun g p => tileSet g p.2 p.1 .trap) g) .trap ≤
      countTile g .trap + l.length := by
  induction l with
  | nil => intro g; simp
  | cons p ps ih =>
    intro g
    rw [List.foldl_cons]
    have h1 := ih (tileSet g p.2 p.1 .trap)
    have h2 := countTile_tileSet_le g p.2 p.1 .trap
    simp only [List.length_cons]
    omega

theorem countTile_foldl_le {α : Type} {t' : TileType} {f : Grid → α → Grid}
    (hmono : ∀ g a, countTile (f g a) t' ≤ countTile g t') :
    ∀ (l : List α) (g : Grid), countTile (l.foldl f g) t' ≤ countTile g t' := by
  intro l
  induction l with
  | nil => intro g; exact le_refl _
  | cons a l ih => intro g; exact (ih _).trans (hmono g a)

theorem countTile_carveRoom_le (g : Grid) (room : Room) (t' : TileType)
    (hne : TileType.floor ≠ t') : countTile (carveRoom g room) t' ≤ countTile g t' := by
  unfold carveRoom
  refine countTile_foldl_le (fun g y => ?_) _ _
  exact countTile_foldl_le (fun g x => countTile_tileSet_ne g y x .floor t' hne) _ _

theorem countTile_eq_zero {g : Grid} {t : TileType}
    (h : ∀ row ∈ g, ∀ c ∈ row, c ≠ t) : countTile g t = 0 := by
  unfold countTile
  refine List.sum_eq_zero ?_
  intro n hn
  rw [List.mem_map] at hn
  obtain ⟨row, hrow, rfl⟩ := hn
  exact countP_eq_zero_of_all (fun c hc => by simp [h row hrow c hc])

/-! ## The trap pass -/

theorem intRange_length (a b : Int) : (intRange a b).length = (b - a).toNat := by
  unfold intRange
  rw [List.length_map, List.length_range]

theorem length_flatMap_le {α β : Type} (l : List α) (f : α → List β) (m : Nat)
    (h : ∀ a ∈ l, (f a).length ≤ m) : (l.flatMap f).length ≤ l.length * m := by
  induction l with
  | nil => simp
  | cons x xs ih =>
    rw [List.flatMap_cons, List.length_append]
    have h1 := h x (by simp)
    have h2 := ih (fun a ha => h a (by simp [ha]))
    have e : (x :: xs).length * m = xs.length * m + m := by
      simp only [List.length_cons]
      rw [Nat.succ_mul]
    omega

theorem floorTilesOf_length_le (cfg : DungeonConfig) (g : Grid) :
    (floorTilesOf cfg g).length ≤ cfg.height.toNat * cfg.width.toNat := by
  unfold floorTilesOf
  have h := length_flatMap_le (intRange 0 cfg.height)
    (fun y => (intRange 0 cfg.width).flatMap (fun x =>
      if tileGet g y x = TileType.floor then [(x, y)] else [])) cfg.width.toNat ?_
  · rw [intRange_length] at h
    simpa using h
  · intro y hy
    have h2 := length_flatMap_le (intRange 0 cfg.width)
      (fun x => if tileGet g y x = TileType.floor then [(x, y)] else []) 1 ?_
    · rw [intRange_length, Nat.mul_one] at h2
      simpa using h2
    · intro x hx
      simp only []
      split <;> simp

theorem pyTrunc_eq_floor {q : ℚ} (h : 0 ≤ q) : pyTrunc q = ⌊q⌋ := by
  unfold pyTrunc
  rw [Rat.floor_def]
  exact Int.tdiv_eq_ediv (Rat.num_nonneg.mpr h) (Int.ofNat_nonneg _)

theorem pyTrunc_nonneg {q : ℚ} (h : 0 ≤ q) : 0 ≤ pyTrunc q :=
  Int.tdiv_nonneg (Rat.num_nonneg.mpr h) (Int.ofNat_nonneg _)

theorem pyTrunc_nonpos {q : ℚ} (h : q ≤ 0) : pyTrunc q ≤ 0 := by
  unfold pyTrunc
  have hn : 0 ≤ -q.num := by
    have := Rat.num_nonpos.mpr h
    omega
  have h1 : 0 ≤ (-q.num).tdiv q.den := Int.tdiv_nonneg hn (Int.ofNat_nonneg _)
  rw [Int.neg_tdiv] at h1
  omega

theorem pyTrunc_mono {q1 q2 : ℚ} (h0 : 0 ≤ q1) (h : q1 ≤ q2) :
    pyTrunc q1 ≤ pyTrunc q2 := by
  rw [pyTrunc_eq_floor h0, pyTrunc_eq_floor (h0.trans h)]
  exact Int.floor_le_floor h

theorem pySample_ok_length {α : Type} {population : List α} {k : Int} {r : Rand}
    {l : List α} {r' : Rand} (h : pySample population k r = .ok (l, r')) :
    l.length ≤ k.toNat := by
  unfold pySample at h
  split at h
  · exact absurd h (by simp)
  · have h1 : pySampleAux k.toNat population r = (l, r') := by simpa using h
    have h2 := pySampleAux_length_le k.toNat population r
    rw [h1] at h2
    exact h2

theorem addTraps_spec {cfg : DungeonConfig} {st st' : GenSt} {r r' : Rand}
    (h : addTraps cfg st r = .ok (st', r')) :
    st'.rooms = st.rooms ∧ st'.next_room_id = st.next_room_id ∧
    countTile st'.grid .trap ≤ countTile st.grid .trap +
      (min (pyTrunc (((floorTilesOf cfg st.grid).length : ℚ) * cfg.trap_density))
        ((floorTilesOf cfg st.grid).length : Int)).toNat ∧
    ∀ P : TileType → Prop, P .trap → GridVals P st.grid → GridVals P st'.grid := by
  unfold addTraps at h
  simp only [] at h
  split at h
  · exact absurd h (by simp)
  · rename_i tt r1 heq
    obtain ⟨h1, -⟩ : _ = st' ∧ r1 = r' := by simpa using h
    subst h1
    refine ⟨rfl, rfl, ?_, ?_⟩
    · dsimp only
      have hlen := pySample_ok_length heq
      have hfold := countTile_traps_foldl tt st.grid
      omega
    · intro P htrap hg
      exact gridVals_foldl (fun g p hgp => gridVals_tileSet hgp htrap) _ _ hg

/-! ## Decomposition of a successful run -/

theorem generate_ok_decomp {cfg : DungeonConfig} {seed : Int} {stream : Nat → Nat}
    {d : Dungeon} (h : generate cfg seed stream = .ok d) :
    ∃ st0 r0 st1 r1 st2 r2 st3 r3 st4 r4,
      generateRoomsBsp cfg (initSt cfg) ⟨stream, 0⟩ = .ok (st0, r0) ∧
      connectRooms cfg st0 r0 = .ok (st1, r1) ∧
      populateRooms cfg (placeSpecialRooms cfg st1) r1 = .ok (st2, r2) ∧
      addTraps cfg st2 r2 = .ok (st3, r3) ∧
      addSecretRooms cfg st3 r3 = .ok (st4, r4) ∧
      d = exportDungeon cfg seed st4 := by
  unfold generate at h
  split at h
  · exact absurd h (by simp)
  rename_i st2 r2 hup
  unfold generateUpToTraps at hup
  split at hup
  · exact absurd hup (by simp)
  rename_i st0 r0 heq0
  split at hup
  · exact absurd hup (by simp)
  rename_i st1 r1 heq1
  unfold finishGeneration at h
  split at h
  · exact absurd h (by simp)
  rename_i st3 r3 heq3
  split at h
  · exact absurd h (by simp)
  rename_i st4 r4 heq4
  have hd : exportDungeon cfg seed st4 = d := by simpa using h
  exact ⟨st0, r0, st1, r1, st2, r2, st3, r3, st4, r4, heq0, heq1, hup, heq3, heq4, hd.symm⟩

/-! ## Glue lemmas for the final catalog and grid -/

theorem sepOK_paddedSep {r1 r2 : Room} (h : sepOK r1 r2) : PaddedSep r1 r2 := by
  unfold sepOK at h
  refine ⟨fun p hp hr => ?_, fun p hp hr => ?_⟩ <;>
    · unfold inPaddedRect at hp
      unfold inRect at hr
      obtain ⟨a1, a2, a3, a4⟩ := hp
      obtain ⟨b1, b2, b3, b4⟩ := hr
      omega

theorem default_room_connections : (default : Room).connections = [] := rfl

theorem adjIdx_roomAdj {rooms : List Room} (hid : IdInv rooms) {i j : Nat}
    (h : adjIdx rooms i j) : roomAdj rooms i j := by
  rcases h with h | h
  · by_cases hi : i < rooms.length
    · exact Or.inl ⟨roomAt rooms i, roomAt_mem _ _ hi, hid i hi, h⟩
    · rw [roomAt_of_le _ _ (not_lt.mp hi), default_room_connections] at h
      exact absurd h (List.not_mem_nil _)
  · by_cases hj : j < rooms.length
    · exact Or.inr ⟨roomAt rooms j, roomAt_mem _ _ hj, hid j hj, h⟩
    · rw [roomAt_of_le _ _ (not_lt.mp hj), default_room_connections] at h
      exact absurd h (List.not_mem_nil _)

theorem roomReach_of_zero {rooms : List Room} (hid : IdInv rooms)
    (h0 : ∀ i, i < rooms.length → Relation.ReflTransGen (adjIdx rooms) 0 i)
    {a b : Nat} (ha : a < rooms.length) (hb : b < rooms.length) :
    roomReach rooms a b := by
  have hsym : Symmetric (roomAdj rooms) := fun x y hxy => hxy.symm
  have hmono : ∀ x y, adjIdx rooms x y → roomAdj rooms x y :=
    fun x y hxy => adjIdx_roomAdj hid hxy
  have ra : Relation.ReflTransGen (roomAdj rooms) 0 a :=
    Relation.ReflTransGen.mono hmono (h0 a ha)
  have rb : Relation.ReflTransGen (roomAdj rooms) 0 b :=
    Relation.ReflTransGen.mono hmono (h0 b hb)
  exact Relation.ReflTransGen.trans (Relation.ReflTransGen.symmetric hsym ra) rb

theorem gridVals_generateRooms {P : TileType → Prop} {cfg : DungeonConfig}
    {st st' : GenSt} {r r' : Rand} (hf : P .floor)
    (h : generateRoomsBsp cfg st r = .ok (st', r')) (hg : GridVals P st.grid) :
    GridVals P st'.grid := by
  unfold generateRoomsBsp at h
  split at h
  · exact absurd h (by simp)
  · exact gridVals_placeLoop hf h hg

theorem gridVals_upToTraps {P : TileType → Prop} (hw : P .wall) (hf : P .floor)
    {cfg : DungeonConfig} {r : Rand} {st2 : GenSt} {r2 : Rand}
    (h : generateUpToTraps cfg r = .ok (st2, r2)) : GridVals P st2.grid := by
  unfold generateUpToTraps at h
  split at h
  · exact absurd h (by simp)
  · rename_i st0 r0 heq0
    split at h
    · exact absurd h (by simp)
    · rename_i st1 r1 heq1
      have h2 := (populateRooms_spec h).2.2.1
      rw [h2, placeSpecialRooms_grid]
      exact gridVals_connectRooms hf heq1
        (gridVals_generateRooms hf heq0 (gridVals_init cfg hw))

/-- The sampled trap count is bounded by the truncation of
`width * height * density`, whatever the signs of the three quantities. -/
theorem trapBound_le {m : Nat} {W H : Int} {D : ℚ} (hm : m ≤ H.toNat * W.toNat) :
    (min (pyTrunc ((m : ℚ) * D)) (m : Int)).toNat ≤
      (pyTrunc ((W : ℚ) * (H : ℚ) * D)).toNat := by
  by_cases hD : 0 ≤ D
  · by_cases hWH : 0 ≤ W ∧ 0 ≤ H
    · have hZ : (m : ℤ) ≤ W * H := by
        have h1 : (m : ℤ) ≤ ((H.toNat * W.toNat : ℕ) : ℤ) := by exact_mod_cast hm
        push_cast [Int.toNat_of_nonneg hWH.1, Int.toNat_of_nonneg hWH.2] at h1
        rw [mul_comm] at h1
        exact h1
      have hcast : (m : ℚ) ≤ (W : ℚ) * (H : ℚ) := by exact_mod_cast hZ
      have h0 : 0 ≤ (m : ℚ) * D := mul_nonneg (Nat.cast_nonneg m) hD
      have hmul : (m : ℚ) * D ≤ (W : ℚ) * (H : ℚ) * D :=
        mul_le_mul_of_nonneg_right hcast hD
      have hle : min (pyTrunc ((m : ℚ) * D)) (m : Int) ≤
          pyTrunc ((W : ℚ) * (H : ℚ) * D) :=
        le_trans (min_le_left _ _) (pyTrunc_mono h0 hmul)
      omega
    · have hm0 : m = 0 := by
        rcases not_and_or.mp hWH with hW | hH
        · have hz : W.toNat = 0 := by omega
          rw [hz, Nat.mul_zero] at hm
          omega
        · have hz : H.toNat = 0 := by omega
          rw [hz, Nat.zero_mul] at hm
          omega
      subst hm0
      have hq : ((0 : Nat) : ℚ) * D = 0 := by rw [Nat.cast_zero, zero_mul]
      rw [hq]
      have hpz : pyTrunc 0 = 0 := rfl
      rw [hpz]
      have hmn : min (0 : Int) ((0 : Nat) : Int) ≤ 0 := min_le_left _ _
      omega
  · have hD' : D ≤ 0 := le_of_lt (not_le.mp hD)
    have hq : (m : ℚ) * D ≤ 0 := by
      have h0 : (0 : ℚ) ≤ (m : ℚ) := Nat.cast_nonneg m
      calc (m : ℚ) * D ≤ (m : ℚ) * 0 := mul_le_mul_of_nonneg_left hD' h0
      _ = 0 := mul_zero _
    have h2 : min (pyTrunc ((m : ℚ) * D)) (m : Int) ≤ 0 :=
      le_trans (min_le_left _ _) (pyTrunc_nonpos hq)
    omega

/-- Everything a successful run guarantees of the exported room catalog, under
a non-negative minimum room size (sizes are then non-negative, so the
secret-room pass provably adds nothing). -/
theorem generate_final_facts {cfg : DungeonConfig} {seed : Int} {stream : Nat → Nat}
    {d : Dungeon} (hmin : 0 ≤ cfg.min_room_size) (h : generate cfg seed stream = .ok d) :
    d.rooms.Pairwise sepOK ∧ IdInv d.rooms ∧
    (2 ≤ d.rooms.length →
      typeCount d.rooms .entrance = 1 ∧ typeCount d.rooms .boss = 1) ∧
    (d.rooms.length = 1 →
      typeCount d.rooms .entrance = 0 ∧ typeCount d.rooms .boss = 1) ∧
    (∀ i, i < d.rooms.length → Relation.ReflTransGen (adjIdx d.rooms) 0 i) ∧
    EncOK d.rooms ∧
    (∀ room ∈ d.rooms, room.room_type = .boss →
      room.encounters = generateBossEncounter cfg) := by
  obtain ⟨st0, r0, st1, r1, st2, r2, st3, r3, st4, r4, heq0, heq1, heq2, heq3, heq4, hd⟩ :=
    generate_ok_decomp h
  have hinv := generateRoomsBsp_inv heq0
  obtain ⟨hconn, hnext1, hreach1⟩ := connectRooms_spec heq1
  have hpop15 := placeSpecialRooms_popExt cfg st1
  obtain ⟨hpop2, hnext2, hgrid2, hcntE, hcntB, hEnc2, hboss2⟩ := populateRooms_spec heq2
  obtain ⟨hrooms3, hnext3, hcnt3, hgv3⟩ := addTraps_spec heq3
  have hg01 : GeomEq st0.rooms st1.rooms := connExt_geomEq hconn
  have hg115 : GeomEq st1.rooms (placeSpecialRooms cfg st1).rooms := popExt_geomEq hpop15
  have hg152 : GeomEq (placeSpecialRooms cfg st1).rooms st2.rooms := popExt_geomEq hpop2
  have hg02 : GeomEq st0.rooms st2.rooms := geomEq_trans (geomEq_trans hg01 hg115) hg152
  have hsz0 : ∀ room ∈ st0.rooms, 0 ≤ room.width ∧ 0 ≤ room.height := by
    intro room hm
    have := hinv.sizes room hm
    omega
  have hsz2 := sizes_of_geomEq hg02 hsz0
  have hsz3 : ∀ room ∈ st3.rooms, 0 ≤ room.width ∧ 0 ≤ room.height := by
    rw [hrooms3]
    exact hsz2
  obtain ⟨hrooms4, hgrid4⟩ := addSecretRooms_no_room hsz3 heq4
  have hdr : d.rooms = st2.rooms := by
    rw [hd]
    show st4.rooms = st2.rooms
    rw [hrooms4, hrooms3]
  have hlen01 : st1.rooms.length = st0.rooms.length := hconn.1
  have hlen115 : (placeSpecialRooms cfg st1).rooms.length = st1.rooms.length := hpop15.1
  have hlen152 : st2.rooms.length = (placeSpecialRooms cfg st1).rooms.length := hpop2.1
  have hpair1 : st1.rooms.Pairwise sepOK := pairwise_sepOK_of_geomEq hg01 hinv.pair
  have hsz1 := sizes_of_geomEq hg01 hsz0
  have hcor1 : ∀ room ∈ st1.rooms, room.room_type = .corridor := by
    intro room hm
    obtain ⟨i, hi, rfl⟩ := mem_iff_roomAt.mp hm
    rw [(hconn.2 i).2.1]
    exact (hinv.blank _ (roomAt_mem _ _ (by omega))).1
  obtain ⟨hc2, hc1, -⟩ := @placeSpecialRooms_counts cfg st1 hpair1 hsz1 hcor1
  refine ⟨?_, ?_, ?_, ?_, ?_, ?_, ?_⟩
  · rw [hdr]
    exact pairwise_sepOK_of_geomEq hg02 hinv.pair
  · rw [hdr]
    exact idInv_of_geomEq hg02 hinv.ids
  · intro h2
    rw [hdr] at h2 ⊢
    obtain ⟨he, hb⟩ := hc2 (by omega)
    exact ⟨hcntE.trans he, hcntB.trans hb⟩
  · intro h1
    rw [hdr] at h1 ⊢
    obtain ⟨he, hb⟩ := hc1 (by omega)
    exact ⟨hcntE.trans he, hcntB.trans hb⟩
  · intro i hi
    rw [hdr] at hi ⊢
    by_cases hlen : 2 ≤ st0.rooms.length
    · have hr1 := hreach1 hlen i (by omega)
      have step : ∀ x y, adjIdx st1.rooms x y → adjIdx st2.rooms x y :=
        fun x y hxy => adjIdx_of_popExt hpop2 (adjIdx_of_popExt hpop15 hxy)
      exact Relation.ReflTransGen.mono step hr1
    · have hi0 : i = 0 := by omega
      subst hi0
      exact Relation.ReflTransGen.refl
  · have hbl15 : ∀ room ∈ (placeSpecialRooms cfg st1).rooms, room.encounters = [] := by
      intro room hm
      obtain ⟨i, hi, rfl⟩ := mem_iff_roomAt.mp hm
      rw [placeSpecialRooms_enc cfg st1 i, (hconn.2 i).2.2.2.2.2.2.1]
      exact (hinv.blank _ (roomAt_mem _ _ (by omega))).2.2
    have hE15 : EncOK (placeSpecialRooms cfg st1).rooms := by
      intro room hm e he px py hp
      rw [hbl15 room hm] at he
      exact absurd he (List.not_mem_nil _)
    rw [hdr]
    exact hEnc2 hE15
  · rw [hdr]
    exact hboss2

/-! ## The claims

Concrete runs are evaluated inside proofs, so the arithmetic of `ℚ` must be
unfoldable by the elaborator here. -/

attribute [local semireducible] Rat.mul Rat.inv Rat.add Rat.sub

set_option maxRecDepth 100000

/-- C1 (counterexample to the literal claim): in the dungeon generated from
`cfg1` with the draws `s1`, the first two rooms of the catalog are distinct
members, yet the point (6, 2) lies in both of their padded rectangles — the
padded rectangles of two distinct rooms need not be disjoint. -/
theorem C1_padded_rects_can_meet :
    roomAt (dungeonOf (generate cfg1 7 (L s1))).rooms 0 ∈
      (dungeonOf (generate cfg1 7 (L s1))).rooms ∧
    roomAt (dungeonOf (generate cfg1 7 (L s1))).rooms 1 ∈
      (dungeonOf (generate cfg1 7 (L s1))).rooms ∧
    roomAt (dungeonOf (generate cfg1 7 (L s1))).rooms 0 ≠
      roomAt (dungeonOf (generate cfg1 7 (L s1))).rooms 1 ∧
    ¬ PaddedDisjoint (roomAt (dungeonOf (generate cfg1 7 (L s1))).rooms 0)
      (roomAt (dungeonOf (generate cfg1 7 (L s1))).rooms 1) := by
  refine ⟨by decide, by decide, by decide, fun hpd => hpd (6, 2) ⟨?_, ?_⟩⟩ <;>
    · unfold inPaddedRect
      exact ⟨by decide, by decide, by decide, by decide⟩

/-- C1 (amended): in every generated dungeon (with a non-negative minimum room
size), every two rooms of the final catalog are separated by at least the
2-tile padding margin: each room's padded rectangle misses the other room's
rectangle.  The literal claim — the two padded rectangles themselves disjoint,
a 4-tile gap — is more than `_check_room_overlap` enforces. -/
theorem C1_rooms_padded_separated {cfg : DungeonConfig} {seed : Int}
    {stream : Nat → Nat} {d : Dungeon} (hmin : 0 ≤ cfg.min_room_size)
    (h : generate cfg seed stream = .ok d) : d.rooms.Pairwise PaddedSep :=
  ((generate_final_facts hmin h).1).imp (fun hab => sepOK_paddedSep hab)

/-- Witness for the amended C1: the four rooms generated from `cfg1` are
pairwise padded-separated. -/
theorem C1_rooms_padded_separated_witness :
    (dungeonOf (generate cfg1 7 (L s1))).rooms.Pairwise PaddedSep :=
  @C1_rooms_padded_separated cfg1 7 (L s1) (dungeonOf (generate cfg1 7 (L s1)))
    (by decide) rfl

/-- C2: in every generated dungeon (with a non-negative minimum room size),
every room of the final catalog is reachable from every other along the
recorded adjacency edges. -/
theorem C2_catalog_connected {cfg : DungeonConfig} {seed : Int}
    {stream : Nat → Nat} {d : Dungeon} (hmin : 0 ≤ cfg.min_room_size)
    (h : generate cfg seed stream = .ok d) :
    ∀ ra ∈ d.rooms, ∀ rb ∈ d.rooms, roomReach d.rooms ra.id rb.id := by
  obtain ⟨-, hid, -, -, hreach, -, -⟩ := generate_final_facts hmin h
  intro a ha b hb
  obtain ⟨i, hi, rfl⟩ := mem_iff_roomAt.mp ha
  obtain ⟨j, hj, rfl⟩ := mem_iff_roomAt.mp hb
  rw [hid i hi, hid j hj]
  exact roomReach_of_zero hid hreach hi hj

/-- Witness for C2: in the dungeon generated from `cfg1`, the first room
reaches the last along recorded edges. -/
theorem C2_catalog_connected_witness :
    roomReach (dungeonOf (generate cfg1 7 (L s1))).rooms
      (roomAt (dungeonOf (generate cfg1 7 (L s1))).rooms 0).id
      (roomAt (dungeonOf (generate cfg1 7 (L s1))).rooms 3).id :=
  @C2_catalog_connected cfg1 7 (L s1) (dungeonOf (generate cfg1 7 (L s1)))
    (by decide) rfl
    (roomAt (dungeonOf (generate cfg1 7 (L s1))).rooms 0) (by decide)
    (roomAt (dungeonOf (generate cfg1 7 (L s1))).rooms 3) (by decide)

/-- C3 (the code bug): `__init__` runs `self.seed = seed or random.randint(...)`,
and Python's `or` treats the supplied seed `0` as absent.  Two runs of the
generator over `cfg3`, both with the explicit seed `0` and with ambient
draws `1` and `2` for the fallback `randint`, succeed and record different
seeds — so the same supplied seed yields different outputs. -/
theorem C3_seed_zero_not_reproducible :
    (dungeonOf (generateRun cfg3 (some 0) 1 p3)).metadata.seed = 1 ∧
    (dungeonOf (generateRun cfg3 (some 0) 2 p3)).metadata.seed = 2 ∧
    generateRun cfg3 (some 0) 1 p3 ≠ generateRun cfg3 (some 0) 2 p3 := by
  refine ⟨by decide, by decide, fun hc => ?_⟩
  have hs := congrArg (fun e => (dungeonOf e).metadata.seed) hc
  exact absurd hs (by decide)

/-- C4 (the code bug): with exactly two rooms placed, the Connectivity
Builder's extra-edge pass runs `random.randint(1, room_count // 4)` =
`randint(1, 0)`, an empty range, and the whole generation raises instead of
completing: the draws `s4` place the two rooms of `cfg4` and the run ends in
the `randrange` error. -/
theorem C4_extra_edge_count_crashes_on_two_rooms :
    roomsPlaced (generateRoomsBsp cfg4 (initSt cfg4) ⟨L s4, 0⟩) = 2 ∧
    generate cfg4 7 (L s4) = .error "empty range for randrange()" :=
  ⟨by decide, rfl⟩

/-- C5 (the code bug): with zero rooms placed, the secret-room pass does not
tolerate the empty catalog: when the secret roll falls below the chance
(draws `s5`, default 5% chance), `random.choice(self.rooms)` is called on the
empty list and the run raises instead of exporting an all-wall dungeon. -/
theorem C5_zero_rooms_crash_in_secret_pass :
    roomsPlaced (generateRoomsBsp cfg5 (initSt cfg5) ⟨L s5, 0⟩) = 0 ∧
    generate cfg5 7 (L s5) = .error "Cannot choose from an empty sequence" :=
  ⟨by decide, rfl⟩

/-- C6: in every generated dungeon, the trap tiles of the exported grid number
at most `int(width * height * trap_density)` and at most the floor tiles the
trap pass collected, and a zero density leaves no trap at all. -/
theorem C6_trap_count_bounded {cfg : DungeonConfig} {seed : Int}
    {stream : Nat → Nat} {d : Dungeon} {st2 : GenSt} {r2 : Rand}
    (h : generate cfg seed stream = .ok d)
    (hup : generateUpToTraps cfg ⟨stream, 0⟩ = .ok (st2, r2)) :
    countTile d.grid .trap ≤
      (pyTrunc ((cfg.width : ℚ) * (cfg.height : ℚ) * cfg.trap_density)).toNat ∧
    countTile d.grid .trap ≤ (floorTilesOf cfg st2.grid).length ∧
    (cfg.trap_density = 0 → countTile d.grid .trap = 0) := by
  have h' : finishGeneration cfg seed st2 r2 = .ok d := by
    unfold generate at h
    rw [hup] at h
    exact h
  unfold finishGeneration at h'
  split at h'
  · exact absurd h' (by simp)
  rename_i st3 r3 heq3
  split at h'
  · exact absurd h' (by simp)
  rename_i st4 r4 heq4
  have hd : exportDungeon cfg seed st4 = d := by simpa using h'
  have hgv2 : GridVals (fun t => t = TileType.wall ∨ t = TileType.floor) st2.grid :=
    gridVals_upToTraps (Or.inl rfl) (Or.inr rfl) hup
  have hz2 : countTile st2.grid .trap = 0 := by
    refine countTile_eq_zero ?_
    intro row hr c hc
    rcases hgv2 row hr c hc with h1 | h1 <;> (rw [h1]; decide)
  obtain ⟨-, -, hcnt3, -⟩ := addTraps_spec heq3
  have hle4 : countTile st4.grid .trap ≤ countTile st3.grid .trap := by
    rcases addSecretRooms_cases heq4 with ⟨-, hgr⟩ |
      ⟨sec, -, ⟨sec0, hgr⟩, -, -, -, -, -, -, -, -, -⟩
    · rw [hgr]
    · rw [hgr]
      exact countTile_carveRoom_le _ _ _ (by decide)
  have hdg : countTile d.grid .trap = countTile st4.grid .trap := by
    rw [← hd]
    rfl
  refine ⟨?_, ?_, ?_⟩
  · have hb := @trapBound_le (floorTilesOf cfg st2.grid).length cfg.width cfg.height
      cfg.trap_density (floorTilesOf_length_le cfg st2.grid)
    omega
  · have hmn : min (pyTrunc (((floorTilesOf cfg st2.grid).length : ℚ) * cfg.trap_density))
        ((floorTilesOf cfg st2.grid).length : Int) ≤
        ((floorTilesOf cfg st2.grid).length : Int) := min_le_right _ _
    omega
  · intro hD0
    rw [hD0, mul_zero] at hcnt3
    have hpz : pyTrunc 0 = 0 := rfl
    rw [hpz] at hcnt3
    have hmn : min (0 : Int) ((floorTilesOf cfg st2.grid).length : Int) ≤ 0 :=
      min_le_left _ _
    omega

/-- Witness for C6: the dungeon generated from `cfg6` (trap density 1/4)
respects both trap bounds. -/
theorem C6_trap_count_bounded_witness :
    countTile (dungeonOf (generate cfg6 7 (L s6))).grid .trap ≤
      (pyTrunc ((cfg6.width : ℚ) * (cfg6.height : ℚ) * cfg6.trap_density)).toNat ∧
    countTile (dungeonOf (generate cfg6 7 (L s6))).grid .trap ≤
      (floorTilesOf cfg6 (upSt (generateUpToTraps cfg6 ⟨L s6, 0⟩)).grid).length ∧
    (cfg6.trap_density = 0 →
      countTile (dungeonOf (generate cfg6 7 (L s6))).grid .trap = 0) :=
  @C6_trap_count_bounded cfg6 7 (L s6) (dungeonOf (generate cfg6 7 (L s6)))
    (upSt (generateUpToTraps cfg6 ⟨L s6, 0⟩))
    (upRand (generateUpToTraps cfg6 ⟨L s6, 0⟩)) rfl rfl

/-- C7: in every generated dungeon (with a non-negative minimum room size),
a catalog of two or more rooms holds exactly one entrance room and exactly one
boss room; a one-room catalog holds no entrance room and one boss room, the
boss assignment having overwritten the entrance tag. -/
theorem C7_one_entrance_one_boss {cfg : DungeonConfig} {seed : Int}
    {stream : Nat → Nat} {d : Dungeon} (hmin : 0 ≤ cfg.min_room_size)
    (h : generate cfg seed stream = .ok d) :
    (2 ≤ d.rooms.length →
      typeCount d.rooms .entrance = 1 ∧ typeCount d.rooms .boss = 1) ∧
    (d.rooms.length = 1 →
      typeCount d.rooms .entrance = 0 ∧ typeCount d.rooms .boss = 1) := by
  obtain ⟨-, -, h2, h1, -, -, -⟩ := generate_final_facts hmin h
  exact ⟨h2, h1⟩

/-- Witness for C7: the four-room dungeon of `cfg1` has exactly one entrance
and one boss; the one-room dungeon of `cfg6` has no entrance and one boss. -/
theorem C7_one_entrance_one_boss_witness :
    (typeCount (dungeonOf (generate cfg1 7 (L s1))).rooms .entrance = 1 ∧
      typeCount (dungeonOf (generate cfg1 7 (L s1))).rooms .boss = 1) ∧
    (typeCount (dungeonOf (generate cfg6 7 (L s6))).rooms .entrance = 0 ∧
      typeCount (dungeonOf (generate cfg6 7 (L s6))).rooms .boss = 1) :=
  ⟨(@C7_one_entrance_one_boss cfg1 7 (L s1) (dungeonOf (generate cfg1 7 (L s1)))
      (by decide) rfl).1 (by decide),
   (@C7_one_entrance_one_boss cfg6 7 (L s6) (dungeonOf (generate cfg6 7 (L s6)))
      (by decide) rfl).2 (by decide)⟩

/-- C8 (counterexample to the literal claim): without a boss descriptor there
is no generic default — `_generate_boss_encounter` returns the empty list, so
the boss room of the `cfg1` dungeon (whose config has no `boss_config`) has no
encounter at all. -/
theorem C8_boss_room_without_encounter :
    roomAt (dungeonOf (generate cfg1 7 (L s1))).rooms 2 ∈
      (dungeonOf (generate cfg1 7 (L s1))).rooms ∧
    (roomAt (dungeonOf (generate cfg1 7 (L s1))).rooms 2).room_type = .boss ∧
    (roomAt (dungeonOf (generate cfg1 7 (L s1))).rooms 2).encounters = [] :=
  ⟨by decide, by decide, rfl⟩

/-- C8 (amended): in every generated dungeon (with a non-negative minimum room
size), every boss room's encounter list is exactly `_generate_boss_encounter`'s
output: the one record built from the boss descriptor when one is supplied, and
the EMPTY list — not a generic default boss — otherwise. -/
theorem C8_boss_encounters_from_config {cfg : DungeonConfig} {seed : Int}
    {stream : Nat → Nat} {d : Dungeon} (hmin : 0 ≤ cfg.min_room_size)
    (h : generate cfg seed stream = .ok d) :
    ∀ room ∈ d.rooms, room.room_type = .boss →
      room.encounters = generateBossEncounter cfg := by
  obtain ⟨-, -, -, -, -, -, hb⟩ := generate_final_facts hmin h
  exact hb

/-- Witness for the amended C8: under `cfg2`, whose boss descriptor is
present, the boss room carries exactly the descriptor's encounter, and that
encounter list is non-empty. -/
theorem C8_boss_encounters_from_config_witness :
    (roomAt (dungeonOf (generate cfg2 7 (L s6))).rooms 0).encounters =
      generateBossEncounter cfg2 ∧
    generateBossEncounter cfg2 ≠ [] :=
  ⟨@C8_boss_encounters_from_config cfg2 7 (L s6) (dungeonOf (generate cfg2 7 (L s6)))
      (by decide) rfl
      (roomAt (dungeonOf (generate cfg2 7 (L s6))).rooms 0) (by decide) (by decide),
   by decide⟩

/-- C9: in every generated dungeon whose configuration has
`min_room_size ≥ 3` and a non-empty monster table, every positioned encounter
of every room lies in its owning room's interior, the rectangle shrunk by one
tile on every side. -/
theorem C9_encounters_in_interior {cfg : DungeonConfig} {seed : Int}
    {stream : Nat → Nat} {d : Dungeon} (hmin3 : 3 ≤ cfg.min_room_size)
    (_hmt : cfg.monster_table ≠ []) (h : generate cfg seed stream = .ok d) :
    EncOK d.rooms := by
  obtain ⟨-, -, -, -, -, he, -⟩ := generate_final_facts (by omega) h
  exact he

/-- Witness for C9: the encounters of the `cfg1` dungeon (min room size 4,
one-entry monster table) sit inside their rooms' interiors. -/
theorem C9_encounters_in_interior_witness :
    EncOK (dungeonOf (generate cfg1 7 (L s1))).rooms :=
  @C9_encounters_in_interior cfg1 7 (L s1) (dungeonOf (generate cfg1 7 (L s1)))
    (by decide) (by decide) rfl

/-- C10: every tile of every generated dungeon's exported grid is a wall, a
floor or a trap; the seven other tags of the tile enumeration never occur. -/
theorem C10_grid_three_tags {cfg : DungeonConfig} {seed : Int}
    {stream : Nat → Nat} {d : Dungeon} (h : generate cfg seed stream = .ok d) :
    GridVals (fun t => t = TileType.wall ∨ t = TileType.floor ∨ t = TileType.trap)
      d.grid := by
  obtain ⟨st0, r0, st1, r1, st2, r2, st3, r3, st4, r4, heq0, heq1, heq2, heq3, heq4, hd⟩ :=
    generate_ok_decomp h
  have h0 : GridVals (fun t => t = TileType.wall ∨ t = TileType.floor ∨ t = TileType.trap)
      (initSt cfg).grid := gridVals_init cfg (Or.inl rfl)
  have h1 := gridVals_generateRooms (Or.inr (Or.inl rfl)) heq0 h0
  have h2 := gridVals_connectRooms (Or.inr (Or.inl rfl)) heq1 h1
  have h3 : GridVals (fun t => t = TileType.wall ∨ t = TileType.floor ∨ t = TileType.trap)
      st2.grid := by
    rw [(populateRooms_spec heq2).2.2.1, placeSpecialRooms_grid]
    exact h2
  have h4 := (addTraps_spec heq3).2.2.2 _ (Or.inr (Or.inr rfl)) h3
  have h5 : GridVals (fun t => t = TileType.wall ∨ t = TileType.floor ∨ t = TileType.trap)
      st4.grid := by
    rcases addSecretRooms_cases heq4 with ⟨-, hgr⟩ |
      ⟨sec, -, ⟨sec0, hgr⟩, -, -, -, -, -, -, -, -, -⟩
    · rw [hgr]
      exact h4
    · rw [hgr]
      exact gridVals_carveRoom (Or.inr (Or.inl rfl)) h4
  rw [hd]
  exact h5

/-- Witness for C10: every tile of the `cfg6` dungeon's grid (which does
contain traps) is a wall, a floor or a trap. -/
theorem C10_grid_three_tags_witness :
    GridVals (fun t => t = TileType.wall ∨ t = TileType.floor ∨ t = TileType.trap)
      (dungeonOf (generate cfg6 7 (L s6))).grid :=
  @C10_grid_three_tags cfg6 7 (L s6) (dungeonOf (generate cfg6 7 (L s6))) rfl

end DG
